import Mathlib

/-!
Verification development for the Azure Pricing MCP server
(`src/azure_pricing_server.py`).  The Python pipeline is shallowly
embedded: prices are exact rationals, the upstream retail-price catalog
is an oracle `QueryParams → Envelope`, and each Python function becomes
a computable Lean definition with the same name where possible.
-/

set_option maxHeartbeats 1000000

/-! ## Small helpers mirroring Python primitives -/

/-- A single-quote character, used when assembling filter strings. -/
def sglQuote : String := "\x27"

/-- Python round(q, ndigits) on exact rationals (tie-breaking idealized
to round-half-up; the source only ever compares both sides rounded the
same way, so the tie rule is immaterial to the claims). -/
def pyRound (q : ℚ) (ndigits : ℕ) : ℚ :=
  ((round (q * 10 ^ ndigits) : ℤ) : ℚ) / 10 ^ ndigits

/-- Python truthiness of an optional string (`None` and `""` are falsy). -/
def truthyStr : Option String → Bool
  | none => false
  | some s => s != ""

/-- Python `str(x)` on an optional string (`None` prints as "None"). -/
def pyStrOfOpt : Option String → String
  | none => "None"
  | some s => s

/-- Substring containment on character lists (Python `needle in hay`). -/
def containsSeq (n : List Char) : List Char → Bool
  | [] => n.isEmpty
  | c :: t => n.isPrefixOf (c :: t) || containsSeq n t

/-- Python `a in b` for strings. -/
def strIn (needle hay : String) : Bool :=
  containsSeq needle.toList hay.toList

/-- Python `s.split()`: split on whitespace, dropping empty tokens. -/
def pySplitWs (s : String) : List String :=
  (s.split Char.isWhitespace).filter (fun w => w != "")

/-- Python `s.lower()`, written over the character list so it reduces
definitionally (String.toLower recurses on byte positions and does
not). -/
def strLower (s : String) : String :=
  ⟨s.data.map Char.toLower⟩

/-- Lookup in an insertion-ordered association list (Python dict read). -/
def assocFind {α : Type} (l : List (String × α)) (k : String) : Option α :=
  (l.find? (fun p => p.1 == k)).map (fun p => p.2)

/-- In-place value update of an association list (Python dict write). -/
def assocUpdateF {α : Type} (l : List (String × α)) (k : String) (f : α → α) :
    List (String × α) :=
  l.map (fun p => if p.1 == k then (p.1, f p.2) else p)

/-- Python `set.add` modelled on an insertion-ordered duplicate-free list. -/
def setAdd (l : List String) (r : String) : List String :=
  if l.contains r then l else l ++ [r]

/-! ## Data model (module constants and the catalog's JSON shapes) -/

def AZURE_PRICING_BASE_URL : String := "https://prices.azure.com/api/retail/prices"

def DEFAULT_API_VERSION : String := "2023-01-01-preview"

def MAX_RESULTS_PER_REQUEST : ℕ := 1000

/-- One nested savings-plan offer of a price record. -/
structure SavingsPlan where
  term : Option String := none
  retailPrice : Option ℚ := none
  originalPrice : Option ℚ := none
deriving DecidableEq

/-- One flat catalog price record (`Items` array element).  Optional
fields model JSON keys that may be absent; a missing `savingsPlan` and
an empty one behave identically in the source, so a plain list is used. -/
structure PriceItem where
  serviceName : Option String := none
  productName : Option String := none
  skuName : Option String := none
  armSkuName : Option String := none
  armRegionName : Option String := none
  location : Option String := none
  retailPrice : Option ℚ := none
  originalPrice : Option ℚ := none
  unitOfMeasure : Option String := none
  meterName : Option String := none
  priceType : Option String := none
  savingsPlan : List SavingsPlan := []
deriving DecidableEq

/-- The catalog's JSON envelope `{Items: [...], NextPageLink?}`. -/
structure Envelope where
  items : List PriceItem := []
  nextPageLink : Option String := none

/-- Query parameters sent to the catalog endpoint. -/
structure QueryParams where
  apiVersion : String
  currencyCode : String
  filter : Option String := none
  top : Option ℕ := none
deriving DecidableEq

/-- The upstream retail-price catalog, as a deterministic oracle from
query parameters to a response envelope. -/
def Upstream : Type := QueryParams → Envelope

/-! ## Resilient fetcher (`_make_request`) -/

/-- Outcome of one HTTP attempt: 2xx body, non-2xx status, or transport
failure (`aiohttp.ClientError`). -/
inductive HttpResp (α : Type) where
  | ok (body : α)
  | err (status : ℕ)
  | transport
deriving DecidableEq

/-- Result of `_make_request`: terminal outcome, total attempts made,
and the backoff waits (seconds) performed in order.  `exhausted` mirrors
the dead code path after the loop. -/
inductive FetchResult (α : Type) where
  | success (body : α) (attempts : ℕ) (waits : List ℕ)
  | httpError (status : ℕ) (attempts : ℕ) (waits : List ℕ)
  | transportError (attempts : ℕ) (waits : List ℕ)
  | exhausted (attempts : ℕ)
deriving DecidableEq

def FetchResult.attempts {α : Type} : FetchResult α → ℕ
  | .success _ n _ => n
  | .httpError _ n _ => n
  | .transportError n _ => n
  | .exhausted n => n

def FetchResult.waits {α : Type} : FetchResult α → List ℕ
  | .success _ _ w => w
  | .httpError _ _ w => w
  | .transportError _ w => w
  | .exhausted _ => []

/-- Record a backoff wait that happened before the rest of the run. -/
def FetchResult.withWait {α : Type} (w : ℕ) : FetchResult α → FetchResult α
  | .success b n ws => .success b n (w :: ws)
  | .httpError s n ws => .httpError s n (w :: ws)
  | .transportError n ws => .transportError n (w :: ws)
  | .exhausted n => .exhausted n

/-- The `for attempt in range(max_retries + 1)` loop of `_make_request`:
`fuel` is the number of loop iterations left, `attempt` the current
index.  A 429 with retries left sleeps `5 * (attempt + 1)` seconds and
continues; a 429 on the last attempt, any other HTTP error, or a
transport error is raised immediately. -/
def requestLoop {α : Type} (resp : ℕ → HttpResp α) (max_retries : ℕ) :
    ℕ → ℕ → FetchResult α
  | 0, attempt => .exhausted attempt
  | fuel + 1, attempt =>
    match resp attempt with
    | .ok body => .success body (attempt + 1) []
    | .transport => .transportError (attempt + 1) []
    | .err status =>
      if status = 429 then
        if attempt < max_retries then
          (requestLoop resp max_retries fuel (attempt + 1)).withWait (5 * (attempt + 1))
        else .httpError 429 (attempt + 1) []
      else .httpError status (attempt + 1) []

/-- `_make_request` with retry logic for rate limiting (default
`max_retries = 3`, i.e. at most 4 total attempts). -/
def _make_request {α : Type} (resp : ℕ → HttpResp α) (max_retries : ℕ) : FetchResult α :=
  requestLoop resp max_retries (max_retries + 1) 0

/-! ## Filter builder and search pipeline (`search_azure_prices`) -/

/-- The keyword arguments of `search_azure_prices`, with the source's
defaults. -/
structure SearchArgs where
  service_name : Option String := none
  service_family : Option String := none
  region : Option String := none
  sku_name : Option String := none
  price_type : Option String := none
  currency_code : String := "USD"
  limit : ℕ := 50
  discount_percentage : Option ℚ := none
  validate_sku : Bool := true

/-- Format `field eq 'value'`. -/
def fmtEq (field value : String) : String :=
  field ++ " eq " ++ sglQuote ++ value ++ sglQuote

/-- Format `contains(field, 'value')`. -/
def fmtContainsClause (field value : String) : String :=
  "contains(" ++ field ++ ", " ++ sglQuote ++ value ++ sglQuote ++ ")"

/-- The `filter_conditions` list: present (truthy) predicates in the
fixed source order. -/
def filterConditions (a : SearchArgs) : List String :=
  (if truthyStr a.service_name then [fmtEq "serviceName" (a.service_name.getD "")] else [])
  ++ (if truthyStr a.service_family then [fmtEq "serviceFamily" (a.service_family.getD "")] else [])
  ++ (if truthyStr a.region then [fmtEq "armRegionName" (a.region.getD "")] else [])
  ++ (if truthyStr a.sku_name then [fmtContainsClause "skuName" (a.sku_name.getD "")] else [])
  ++ (if truthyStr a.price_type then [fmtEq "priceType" (a.price_type.getD "")] else [])

/-- Join filter conditions with " and ". -/
def joinAnd (l : List String) : String := String.intercalate " and " l

/-- The query parameters built by `search_azure_prices`. -/
def buildParams (a : SearchArgs) : QueryParams :=
  { apiVersion := DEFAULT_API_VERSION
    currencyCode := a.currency_code
    filter := if filterConditions a = [] then none else some (joinAnd (filterConditions a))
    top := if a.limit < MAX_RESULTS_PER_REQUEST then some a.limit else none }

/-- Defensive re-truncation: `if len(items) > limit: items = items[:limit]`. -/
def truncateItems (items : List PriceItem) (limit : ℕ) : List PriceItem :=
  if items.length > limit then items.take limit else items

/-! ## Discount transform (`_apply_discount_to_items`) -/

/-- Discounted price: `price * (1 - pct / 100)` rounded to 6 decimals. -/
def discountPrice (p pct : ℚ) : ℚ :=
  pyRound (p * (1 - pct / 100)) 6

/-- Discount one savings-plan offer: only a present, truthy (non-zero)
`retailPrice` is replaced, with the original preserved. -/
def applyDiscountPlan (pct : ℚ) (plan : SavingsPlan) : SavingsPlan :=
  match plan.retailPrice with
  | some p =>
    if p ≠ 0 then
      { plan with retailPrice := some (discountPrice p pct), originalPrice := some p }
    else plan
  | none => plan

/-- Discount one item: the retail-price branch, then the savings-plan
branch, exactly as in the source. -/
def applyDiscountItem (pct : ℚ) (item : PriceItem) : PriceItem :=
  let it1 :=
    match item.retailPrice with
    | some p =>
      if p ≠ 0 then
        { item with retailPrice := some (discountPrice p pct), originalPrice := some p }
      else item
    | none => item
  if item.savingsPlan ≠ [] then
    { it1 with savingsPlan := item.savingsPlan.map (applyDiscountPlan pct) }
  else it1

/-- `_apply_discount_to_items`. -/
def _apply_discount_to_items (items : List PriceItem) (pct : ℚ) : List PriceItem :=
  items.map (applyDiscountItem pct)

/-- The discount step of `search_azure_prices`: applied only when a
discount is supplied and strictly positive. -/
def applyDiscountOpt (disc : Option ℚ) (items : List PriceItem) : List PriceItem :=
  match disc with
  | some d => if 0 < d then _apply_discount_to_items items d else items
  | none => items

/-! ## SKU validation (`_validate_and_suggest_skus`) and result assembly -/

/-- One entry of the "did you mean" suggestion list. -/
structure SkuSuggestion where
  sku_name : String
  product_name : String := "Unknown"
  price : ℚ := 0
  unit : String := "Unknown"
  region : String := "Unknown"
deriving DecidableEq

/-- The `sku_validation` descriptor attached on a zero-match SKU search. -/
structure SkuValidation where
  original_sku : String
  found : Bool := false
  message : String := ""
  suggestions : List SkuSuggestion := []
deriving DecidableEq

/-- The `clarification` descriptor attached on an over-broad SKU search. -/
structure Clarification where
  message : String
  suggestions : List String
deriving DecidableEq

/-- One fuzzy-resolver service suggestion. -/
structure ServiceSuggestion where
  service_name : String
  match_reason : String
  sample_items : List PriceItem
deriving DecidableEq

/-- The result dictionary of `search_azure_prices`, including the keys
the fuzzy resolver may attach. -/
structure SearchResult where
  items : List PriceItem := []
  count : ℕ := 0
  has_more : Bool := false
  currency : String := "USD"
  filters_applied : List String := []
  discount_applied : Option ℚ := none
  sku_validation : Option SkuValidation := none
  clarification : Option Clarification := none
  suggestion_used : Option String := none
  original_search : Option String := none
  match_type : Option String := none
  suggestions : List ServiceSuggestion := []
deriving DecidableEq

/-- Assemble the result dictionary from the fetched envelope and the
validation outcome (truncation and discount happen here, in source
order). -/
def assembleResult (a : SearchArgs) (env : Envelope)
    (v : Option SkuValidation) (c : Option Clarification) : SearchResult :=
  let items1 := truncateItems env.items a.limit
  let itemsF := applyDiscountOpt a.discount_percentage items1
  { items := itemsF
    count := itemsF.length
    has_more := truthyStr env.nextPageLink
    currency := a.currency_code
    filters_applied := filterConditions a
    discount_applied :=
      match a.discount_percentage with
      | some d => if 0 < d then some d else none
      | none => none
    sku_validation := v
    clarification := c }

/-- `search_azure_prices` with `validate_sku=False` (the recursion-free
inner search used by the validation and suggestion code paths). -/
def searchNoValidate (upstream : Upstream) (a : SearchArgs) : SearchResult :=
  assembleResult a (upstream (buildParams a)) none none

/-- The partial-match test of `_validate_and_suggest_skus` (both inputs
already lowercased): substring either way, or any whitespace token of
the query occurring in the item SKU. -/
def matchesSkuLower (sku_lower item_sku_lower : String) : Bool :=
  strIn sku_lower item_sku_lower || strIn item_sku_lower sku_lower ||
    (pySplitWs sku_lower).any (fun w => strIn w item_sku_lower)

/-- The suggestion-collection loop body: skip items without a truthy
skuName, keep partial matches. -/
def rawSuggestions (items : List PriceItem) (sku_lower : String) : List SkuSuggestion :=
  items.filterMap (fun item =>
    match item.skuName with
    | none => none
    | some isku =>
      if isku != "" then
        (if matchesSkuLower sku_lower (strLower isku) then
          some { sku_name := isku
                 product_name := item.productName.getD "Unknown"
                 price := item.retailPrice.getD 0
                 unit := item.unitOfMeasure.getD "Unknown"
                 region := item.armRegionName.getD "Unknown" }
        else none)
      else none)

/-- The dedup-and-cap loop: keep first occurrence per sku_name, stop
once 5 suggestions are collected. -/
def dedupCapSuggest (seen : List String) (acc : List SkuSuggestion) :
    List SkuSuggestion → List SkuSuggestion
  | [] => acc.reverse
  | s :: rest =>
    if seen.contains s.sku_name then dedupCapSuggest seen acc rest
    else if 5 ≤ acc.length + 1 then (s :: acc).reverse
    else dedupCapSuggest (s.sku_name :: seen) (s :: acc) rest

/-- `_validate_and_suggest_skus`: broad re-query (same service, limit
100, validation disabled), partial-match filter, dedup, cap at 5. -/
def _validate_and_suggest_skus (upstream : Upstream) (service_name : Option String)
    (sku_name : String) (currency_code : String) : SkuValidation :=
  let suggestions :=
    if truthyStr service_name then
      rawSuggestions
        (searchNoValidate upstream
          { service_name := service_name
            currency_code := currency_code
            limit := 100
            validate_sku := false }).items
        (strLower sku_name)
    else []
  { original_sku := sku_name
    found := false
    message := "SKU " ++ sglQuote ++ sku_name ++ sglQuote ++ " not found" ++
      (if truthyStr service_name then
        " in service " ++ sglQuote ++ pyStrOfOpt service_name ++ sglQuote
      else "")
    suggestions := dedupCapSuggest [] [] suggestions }

/-- The clarification built when more than 10 items match a SKU filter:
first 5 items' truthy skuNames. -/
def clarificationFor (sku_name : String) (items : List PriceItem) : Clarification :=
  { message := "Found " ++ toString items.length ++ " SKUs matching " ++ sglQuote ++
      sku_name ++ sglQuote ++ ". Consider being more specific."
    suggestions := (items.take 5).filterMap (fun i =>
      match i.skuName with
      | some s => if s != "" then some s else none
      | none => none) }

/-- `search_azure_prices`: build filters, fetch, truncate, validate
(zero-match suggestions or over-broad clarification), discount, and
assemble the result. -/
def search_azure_prices (upstream : Upstream) (a : SearchArgs) : SearchResult :=
  let env := upstream (buildParams a)
  let items1 := truncateItems env.items a.limit
  if a.validate_sku && truthyStr a.sku_name && items1.isEmpty then
    assembleResult a env
      (some (_validate_and_suggest_skus upstream a.service_name (a.sku_name.getD "")
        a.currency_code))
      none
  else if a.validate_sku && truthyStr a.sku_name && decide (10 < items1.length) then
    assembleResult a env none (some (clarificationFor (a.sku_name.getD "") items1))
  else
    assembleResult a env none none

/-! ## Customer discount and the tool handler's default injection -/

/-- The dictionary returned by `get_customer_discount`. -/
structure CustomerDiscount where
  customer_id : String
  discount_percentage : ℚ
  discount_type : String
  description : String
  valid_until : Option String
  applicable_services : String
deriving DecidableEq

/-- `get_customer_discount`: a flat 10% standard discount for every
customer (including the default customer). -/
def get_customer_discount (customer_id : Option String) : CustomerDiscount :=
  { customer_id := customer_id.getD "default"
    discount_percentage := 10
    discount_type := "standard"
    description := "Standard customer discount"
    valid_until := none
    applicable_services := "all" }

/-- The argument rewrite `handle_call_tool` performs for
`azure_price_search`: inject the customer discount when the caller did
not supply one. -/
def azure_price_search_args (arguments : SearchArgs) : SearchArgs :=
  if arguments.discount_percentage = none then
    { arguments with
        discount_percentage := some (get_customer_discount none).discount_percentage }
  else arguments

/-- The `azure_price_search` branch of `handle_call_tool`, up to the
engine call (the later text formatting is out of scope). -/
def handle_azure_price_search (upstream : Upstream) (arguments : SearchArgs) : SearchResult :=
  search_azure_prices upstream (azure_price_search_args arguments)

/-! ## Fuzzy resolver (`_find_similar_services`) -/

/-- The static `service_mappings` alias table, in source order. -/
def service_mappings : List (String × String) :=
  [ ("app service", "Azure App Service")
  , ("web app", "Azure App Service")
  , ("web apps", "Azure App Service")
  , ("app services", "Azure App Service")
  , ("websites", "Azure App Service")
  , ("web service", "Azure App Service")
  , ("virtual machine", "Virtual Machines")
  , ("vm", "Virtual Machines")
  , ("vms", "Virtual Machines")
  , ("compute", "Virtual Machines")
  , ("storage", "Storage")
  , ("blob", "Storage")
  , ("blob storage", "Storage")
  , ("file storage", "Storage")
  , ("disk", "Storage")
  , ("sql", "Azure SQL Database")
  , ("sql database", "Azure SQL Database")
  , ("database", "Azure SQL Database")
  , ("sql server", "Azure SQL Database")
  , ("cosmos", "Azure Cosmos DB")
  , ("cosmosdb", "Azure Cosmos DB")
  , ("cosmos db", "Azure Cosmos DB")
  , ("document db", "Azure Cosmos DB")
  , ("kubernetes", "Azure Kubernetes Service")
  , ("aks", "Azure Kubernetes Service")
  , ("k8s", "Azure Kubernetes Service")
  , ("container service", "Azure Kubernetes Service")
  , ("functions", "Azure Functions")
  , ("function app", "Azure Functions")
  , ("serverless", "Azure Functions")
  , ("redis", "Azure Cache for Redis")
  , ("cache", "Azure Cache for Redis")
  , ("ai", "Azure AI services")
  , ("cognitive", "Azure AI services")
  , ("cognitive services", "Azure AI services")
  , ("openai", "Azure OpenAI")
  , ("networking", "Virtual Network")
  , ("network", "Virtual Network")
  , ("vnet", "Virtual Network")
  , ("load balancer", "Load Balancer")
  , ("lb", "Load Balancer")
  , ("application gateway", "Application Gateway")
  , ("app gateway", "Application Gateway") ]

/-- Alias-table lookup (`search_term in service_mappings`). -/
def lookupMapping (k : String) : Option String :=
  (service_mappings.find? (fun p => p.1 == k)).map (fun p => p.2)

/-- Python `list(set(xs))`.  The source iterates a hash set in
unspecified order; this model fixes first-occurrence order, and no
claim proved here depends on the order. -/
def pySetList (xs : List String) : List String := xs.eraseDups

/-- Tiers 2 and 3 of `_find_similar_services`, ending in the
`suggestions_only` result object that both tiers share. -/
def fuzzySuggestionsOnly (upstream : Upstream) (service_name service_family : Option String)
    (currency_code : String) (search_term : String) : SearchResult :=
  let partial_matches := service_mappings.filterMap (fun p =>
    if strIn search_term p.1 || strIn p.1 search_term then some p.2 else none)
  let tier2 := (pySetList partial_matches).filterMap (fun svc =>
    let r := search_azure_prices upstream
      { service_name := some svc, currency_code := currency_code, limit := 5 }
    if r.items.isEmpty then none
    else some { service_name := svc
                match_reason := "Partial match for " ++ sglQuote ++ pyStrOfOpt service_name ++ sglQuote
                sample_items := r.items.take 3 })
  let suggestions :=
    if tier2.isEmpty then
      let broad := search_azure_prices upstream
        { service_family := service_family, currency_code := currency_code, limit := 100 }
      let matching_services := pySetList (broad.items.filterMap (fun item =>
        let service := item.serviceName.getD ""
        let product := item.productName.getD ""
        if strIn search_term (strLower service) || strIn search_term (strLower product) ||
            (pySplitWs search_term).any (fun w => strIn w (strLower service)) then
          some service
        else none))
      (matching_services.take 5).filterMap (fun svc =>
        let r := search_azure_prices upstream
          { service_name := some svc, currency_code := currency_code, limit := 3 }
        if r.items.isEmpty then none
        else some { service_name := svc
                    match_reason := "Contains " ++ sglQuote ++ search_term ++ sglQuote
                    sample_items := r.items.take 2 })
    else tier2
  { items := []
    count := 0
    has_more := false
    currency := currency_code
    original_search := if truthyStr service_name then service_name else service_family
    suggestions := suggestions
    match_type := some "suggestions_only" }

/-- `_find_similar_services`: tier 1 (exact alias) then tiers 2/3. -/
def _find_similar_services (upstream : Upstream) (service_name service_family : Option String)
    (currency_code : String) (limit : ℕ) : SearchResult :=
  let search_term := strLower (service_name.getD "")
  match lookupMapping search_term with
  | some correct_name =>
    let result := search_azure_prices upstream
      { service_name := some correct_name, currency_code := currency_code, limit := limit }
    if result.items.isEmpty then
      fuzzySuggestionsOnly upstream service_name service_family currency_code search_term
    else
      { result with
          suggestion_used := some correct_name
          original_search := service_name
          match_type := some "exact_mapping" }
  | none => fuzzySuggestionsOnly upstream service_name service_family currency_code search_term

/-- `search_azure_prices_with_fuzzy_matching`: exact search first, then
the fuzzy cascade when it was empty and a service hint exists. -/
def search_azure_prices_with_fuzzy_matching (upstream : Upstream)
    (service_name service_family region sku_name price_type : Option String)
    (currency_code : String) (limit : ℕ) (suggest_alternatives : Bool) : SearchResult :=
  let exact := search_azure_prices upstream
    { service_name := service_name
      service_family := service_family
      region := region
      sku_name := sku_name
      price_type := price_type
      currency_code := currency_code
      limit := limit }
  if !exact.items.isEmpty then exact
  else if suggest_alternatives && (truthyStr service_name || truthyStr service_family) then
    _find_similar_services upstream service_name service_family currency_code limit
  else exact

/-! ## SKU aggregation (`discover_service_skus` and `discover_skus`) -/

/-- One (price, unit, region) sample of a SKU aggregate. -/
structure PriceSample where
  price : ℚ
  unit : String
  region : String
deriving DecidableEq

/-- One SKU aggregate of `discover_service_skus`.  `regions` models the
Python set as an insertion-ordered duplicate-free list. -/
structure SkuAgg where
  sku_name : String
  arm_sku_name : String
  product_name : String
  prices : List PriceSample := []
  regions : List String := []
  min_price : ℚ := 0
  sample_unit : String := "Unknown"
deriving DecidableEq

/-- Loop body of the `discover_service_skus` grouping: create the
aggregate on first occurrence, then append the sample and add the
region. -/
def addServiceSkuItem (skus : List (String × SkuAgg)) (item : PriceItem) :
    List (String × SkuAgg) :=
  let sku_name := item.skuName.getD "Unknown"
  let sample : PriceSample :=
    { price := item.retailPrice.getD 0
      unit := item.unitOfMeasure.getD "Unknown"
      region := item.armRegionName.getD "Unknown" }
  let skus1 :=
    match assocFind skus sku_name with
    | none => skus ++ [(sku_name,
        { sku_name := sku_name
          arm_sku_name := item.armSkuName.getD "Unknown"
          product_name := item.productName.getD "Unknown" })]
    | some _ => skus
  assocUpdateF skus1 sku_name (fun agg =>
    { agg with
        prices := agg.prices ++ [sample]
        regions := setAdd agg.regions sample.region })

/-- The full grouping pass of `discover_service_skus`. -/
def aggregateSkus (items : List PriceItem) : List (String × SkuAgg) :=
  items.foldl addServiceSkuItem []

/-- The min-price policy: minimum over samples with price > 0, else the
first sample's price, else 0. -/
def computeMinPrice (prices : List PriceSample) : ℚ :=
  match (prices.map (fun s => s.price)).filter (fun p => 0 < p) with
  | [] =>
    match prices with
    | [] => 0
    | s :: _ => s.price
  | v :: vs => vs.foldl min v

/-- The summary pass of `discover_service_skus`: derive `min_price` and
`sample_unit` for one aggregate. -/
def finalizeAgg (agg : SkuAgg) : SkuAgg :=
  { agg with
      min_price := computeMinPrice agg.prices
      sample_unit :=
        match agg.prices with
        | [] => "Unknown"
        | s :: _ => s.unit }

/-- The result of `discover_service_skus`. -/
structure DiscoverResult where
  service_found : Option String
  original_search : String
  skus : List (String × SkuAgg)
  total_skus : ℕ
  currency : String
  suggestions : List ServiceSuggestion := []
  match_type : String
deriving DecidableEq

/-- `discover_service_skus`: fuzzy search, then group and summarize. -/
def discover_service_skus (upstream : Upstream) (service_hint : String)
    (region : Option String) (currency_code : String) (limit : ℕ) : DiscoverResult :=
  let result := search_azure_prices_with_fuzzy_matching upstream
    (some service_hint) none region none none currency_code limit true
  if !result.items.isEmpty then
    let skus := (aggregateSkus result.items).map (fun p => (p.1, finalizeAgg p.2))
    { service_found := some (result.suggestion_used.getD service_hint)
      original_search := service_hint
      skus := skus
      total_skus := skus.length
      currency := currency_code
      match_type := result.match_type.getD "exact" }
  else
    { service_found := none
      original_search := service_hint
      skus := []
      total_skus := 0
      currency := currency_code
      suggestions := result.suggestions
      match_type := "no_match" }

/-- One deduplicated SKU of `discover_skus`. -/
structure DiscoveredSku where
  sku_name : String
  arm_sku_name : Option String
  product_name : Option String
  sample_price : ℚ
  unit_of_measure : Option String
  meter_name : Option String
  sample_region : Option String
  available_regions : List String
deriving DecidableEq

/-- Loop body of the `discover_skus` dedup: skip falsy skuNames, create
the record on first occurrence, else add an unseen truthy region. -/
def addDiscoverSkuItem (skus : List (String × DiscoveredSku)) (item : PriceItem) :
    List (String × DiscoveredSku) :=
  let region := item.armRegionName
  match item.skuName with
  | none => skus
  | some sn =>
    if sn = "" then skus
    else
      match assocFind skus sn with
      | none => skus ++ [(sn,
          { sku_name := sn
            arm_sku_name := item.armSkuName
            product_name := item.productName
            sample_price := item.retailPrice.getD 0
            unit_of_measure := item.unitOfMeasure
            meter_name := item.meterName
            sample_region := region
            available_regions := if truthyStr region then [region.getD ""] else [] })]
      | some sku =>
        if truthyStr region && !(sku.available_regions.contains (region.getD "")) then
          assocUpdateF skus sn (fun s =>
            { s with available_regions := s.available_regions ++ [region.getD ""] })
        else skus

/-- The dedup pass of `discover_skus` (the final sort by sku_name is a
permutation and is omitted; no claim concerns it). -/
def aggregateDiscoverSkus (items : List PriceItem) : List (String × DiscoveredSku) :=
  items.foldl addDiscoverSkuItem []

/-! ## Cost estimator (`estimate_costs`) -/

/-- One savings-plan cost estimate. -/
structure SavingsEstimate where
  term : Option String
  hourly_rate : ℚ
  monthly_cost : ℚ
  yearly_cost : ℚ
  savings_percent : ℚ
  annual_savings : ℚ
  original_hourly_rate : Option ℚ := none
  original_monthly_cost : Option ℚ := none
  original_yearly_cost : Option ℚ := none
deriving DecidableEq

/-- The on-demand pricing block of a cost estimate. -/
structure OnDemandPricing where
  hourly_rate : ℚ
  daily_cost : ℚ
  monthly_cost : ℚ
  yearly_cost : ℚ
  original_hourly_rate : Option ℚ := none
  original_daily_cost : Option ℚ := none
  original_monthly_cost : Option ℚ := none
  original_yearly_cost : Option ℚ := none
deriving DecidableEq

/-- A successful cost estimate. -/
structure CostEstimate where
  service_name : String
  sku_name : Option String
  region : String
  product_name : Option String
  unit_of_measure : Option String
  currency : String
  on_demand_pricing : OnDemandPricing
  hours_per_month : ℚ
  hours_per_day : ℚ
  savings_plans : List SavingsEstimate
  discount_applied : Option ℚ := none
deriving DecidableEq

/-- `estimate_costs` returns either a not-found descriptor naming the
three inputs, or an estimate. -/
inductive EstimateResult where
  | notFound (service_name sku_name region : String)
  | estimate (e : CostEstimate)
deriving DecidableEq

/-- Hourly rate after the optional discount (shared by the on-demand
rate and each plan rate). -/
def discountedRate (disc : Option ℚ) (rate : ℚ) : ℚ :=
  match disc with
  | some d => if 0 < d then rate * (1 - d / 100) else rate
  | none => rate

/-- One savings-plan estimate, from the raw (pre-rounding) on-demand
figures. -/
def savingsEstimateOf (disc : Option ℚ) (hours_per_month hourly_rate yearly_cost : ℚ)
    (plan : SavingsPlan) : SavingsEstimate :=
  let plan_hourly0 := plan.retailPrice.getD 0
  let plan_hourly := discountedRate disc plan_hourly0
  let plan_monthly := plan_hourly * hours_per_month
  let plan_yearly := plan_monthly * 12
  let savings_percent :=
    if 0 < hourly_rate then ((hourly_rate - plan_hourly) / hourly_rate) * 100 else 0
  let base : SavingsEstimate :=
    { term := plan.term
      hourly_rate := pyRound plan_hourly 6
      monthly_cost := pyRound plan_monthly 2
      yearly_cost := pyRound plan_yearly 2
      savings_percent := pyRound savings_percent 2
      annual_savings := pyRound (yearly_cost - plan_yearly) 2 }
  match disc with
  | some d =>
    if 0 < d then
      { base with
          original_hourly_rate := some plan_hourly0
          original_monthly_cost := some (pyRound (plan_hourly0 * hours_per_month) 2)
          original_yearly_cost := some (pyRound (plan_hourly0 * hours_per_month * 12) 2) }
    else base
  | none => base

/-- `estimate_costs`: search (limit 5), take the first item, derive
daily/monthly/yearly figures and per-plan savings. -/
def estimate_costs (upstream : Upstream) (service_name sku_name region : String)
    (hours_per_month : ℚ) (currency_code : String) (discount_percentage : Option ℚ) :
    EstimateResult :=
  let result := search_azure_prices upstream
    { service_name := some service_name
      sku_name := some sku_name
      region := some region
      currency_code := currency_code
      limit := 5 }
  match result.items with
  | [] => .notFound service_name sku_name region
  | item :: _ =>
    let hourly0 := item.retailPrice.getD 0
    let hourly_rate := discountedRate discount_percentage hourly0
    let monthly_cost := hourly_rate * hours_per_month
    let daily_cost := hourly_rate * 24
    let yearly_cost := monthly_cost * 12
    let savings := item.savingsPlan.map
      (savingsEstimateOf discount_percentage hours_per_month hourly_rate yearly_cost)
    let onDemand0 : OnDemandPricing :=
      { hourly_rate := pyRound hourly_rate 6
        daily_cost := pyRound daily_cost 2
        monthly_cost := pyRound monthly_cost 2
        yearly_cost := pyRound yearly_cost 2 }
    let onDemand :=
      match discount_percentage with
      | some d =>
        if 0 < d then
          { onDemand0 with
              original_hourly_rate := some hourly0
              original_daily_cost := some (pyRound (hourly0 * 24) 2)
              original_monthly_cost := some (pyRound (hourly0 * hours_per_month) 2)
              original_yearly_cost := some (pyRound (hourly0 * hours_per_month * 12) 2) }
        else onDemand0
      | none => onDemand0
    .estimate
      { service_name := service_name
        sku_name := item.skuName
        region := region
        product_name := item.productName
        unit_of_measure := item.unitOfMeasure
        currency := currency_code
        on_demand_pricing := onDemand
        hours_per_month := hours_per_month
        hours_per_day := pyRound (hours_per_month / (3044 / 100)) 2
        savings_plans := savings
        discount_applied :=
          match discount_percentage with
          | some d => if 0 < d then some d else none
          | none => none }

/-! ## Concrete fixtures used by witnesses and counterexamples -/

/-- An upstream that always answers with an empty envelope. -/
def emptyUpstream : Upstream := fun _ => {}

/-- An item whose retail price is present but zero (zero prices do occur
in the catalog, e.g. free tiers). -/
def zeroItem : PriceItem := { retailPrice := some 0 }

/-- An item with retail price 1. -/
def unitItem : PriceItem := { retailPrice := some 1 }

/-- An upstream that always returns exactly `unitItem`. -/
def oneItemUpstream : Upstream := fun _ => { items := [unitItem] }

/-- A Virtual Machines catalog record. -/
def vmItem : PriceItem :=
  { serviceName := some "Virtual Machines"
    skuName := some "D2s v3"
    retailPrice := some (96 / 1000) }

/-- An upstream that has data only for the canonical service name
"Virtual Machines". -/
def vmUpstream : Upstream := fun p =>
  if p.filter = some (fmtEq "serviceName" "Virtual Machines") then { items := [vmItem] }
  else {}

/-- A savings-plan offer at 0.12/hour. -/
def estPlan : SavingsPlan := { term := some "1 Year", retailPrice := some (12 / 100) }

/-- An item priced 0.192/hour with one savings plan. -/
def estItem : PriceItem :=
  { skuName := some "D2s v3"
    retailPrice := some (192 / 1000)
    savingsPlan := [estPlan] }

/-- An upstream that always returns exactly `estItem`. -/
def estUpstream : Upstream := fun _ => { items := [estItem] }

/-- A response sequence: two 429s, then a 200 with body 7. -/
def respTwo429 : ℕ → HttpResp ℕ := fun n => if n < 2 then .err 429 else .ok 7

/-- An item with skuName "S1". -/
def itemB : PriceItem := { skuName := some "S1", retailPrice := some 1 }

/-- An upstream that always returns 12 copies of `itemB` (more than the
clarification threshold of 10). -/
def upstreamC6b : Upstream := fun _ => { items := List.replicate 12 itemB }

/-! ## General lemmas about the embedded pipeline -/

theorem FetchResult.attempts_withWait {α : Type} (w : ℕ) (r : FetchResult α) :
    (r.withWait w).attempts = r.attempts := by
  cases r <;> rfl

theorem requestLoop_attempts_le {α : Type} (resp : ℕ → HttpResp α) (m : ℕ) :
    ∀ fuel attempt, (requestLoop resp m fuel attempt).attempts ≤ attempt + fuel := by
  intro fuel
  induction fuel with
  | zero => intro a; simp [requestLoop, FetchResult.attempts]
  | succ n ih =>
    intro a
    rw [requestLoop]
    cases h : resp a with
    | ok b => simp only [FetchResult.attempts]; omega
    | transport => simp only [FetchResult.attempts]; omega
    | err s =>
      dsimp only
      by_cases h429 : s = 429
      · subst h429
        by_cases hlt : a < m
        · rw [if_pos rfl, if_pos hlt, FetchResult.attempts_withWait]
          have := ih (a + 1)
          omega
        · rw [if_pos rfl, if_neg hlt]
          simp only [FetchResult.attempts]; omega
      · rw [if_neg h429]
        simp only [FetchResult.attempts]; omega

theorem search_azure_prices_items (u : Upstream) (a : SearchArgs) :
    (search_azure_prices u a).items =
      applyDiscountOpt a.discount_percentage
        (truncateItems (u (buildParams a)).items a.limit) := by
  simp only [search_azure_prices]
  split
  · rfl
  · split <;> rfl

theorem search_azure_prices_count (u : Upstream) (a : SearchArgs) :
    (search_azure_prices u a).count = (search_azure_prices u a).items.length := by
  simp only [search_azure_prices]
  split
  · rfl
  · split <;> rfl

theorem search_azure_prices_has_more (u : Upstream) (a : SearchArgs) :
    (search_azure_prices u a).has_more = truthyStr (u (buildParams a)).nextPageLink := by
  simp only [search_azure_prices]
  split
  · rfl
  · split <;> rfl

theorem truncateItems_le (l : List PriceItem) (n : ℕ) : (truncateItems l n).length ≤ n := by
  unfold truncateItems
  split
  · simpa using Nat.min_le_left n l.length
  · omega

theorem truncateItems_pre (l : List PriceItem) (n : ℕ) : truncateItems l n <+: l := by
  unfold truncateItems
  split
  · exact List.take_prefix n l
  · exact List.prefix_refl l

theorem applyDiscountOpt_length (d : Option ℚ) (l : List PriceItem) :
    (applyDiscountOpt d l).length = l.length := by
  cases d with
  | none => rfl
  | some q =>
    simp only [applyDiscountOpt, _apply_discount_to_items]
    split <;> simp

theorem filterConditions_nil_iff (a : SearchArgs) :
    filterConditions a = [] ↔
      truthyStr a.service_name = false ∧ truthyStr a.service_family = false ∧
      truthyStr a.region = false ∧ truthyStr a.sku_name = false ∧
      truthyStr a.price_type = false := by
  unfold filterConditions
  cases truthyStr a.service_name <;> cases truthyStr a.service_family <;>
    cases truthyStr a.region <;> cases truthyStr a.sku_name <;>
    cases truthyStr a.price_type <;> simp

/-! ## Claim theorems -/

/-- C2: the fetcher makes at most 4 total attempts (`max_retries = 3`);
a non-429 HTTP error or a transport failure on the first attempt
propagates immediately with no wait; two 429s followed by a 200 succeed
after exactly 3 attempts with waits 5s then 10s; four 429s surface the
failure after waits 5s, 10s, 15s. -/
theorem C2_fetcher_retry {α : Type} (resp : ℕ → HttpResp α) :
    ((_make_request resp 3).attempts ≤ 4)
    ∧ (∀ s, resp 0 = .err s → s ≠ 429 → _make_request resp 3 = .httpError s 1 [])
    ∧ (resp 0 = .transport → _make_request resp 3 = .transportError 1 [])
    ∧ (∀ b, resp 0 = .err 429 → resp 1 = .err 429 → resp 2 = .ok b →
        _make_request resp 3 = .success b 3 [5, 10])
    ∧ ((∀ n, n < 4 → resp n = .err 429) →
        _make_request resp 3 = .httpError 429 4 [5, 10, 15])
    ∧ (∀ k s, k ≤ 3 → (∀ j, j < k → resp j = .err 429) → resp k = .err s → s ≠ 429 →
        _make_request resp 3 =
          .httpError s (k + 1) ((List.range k).map (fun j => 5 * (j + 1))))
    ∧ (∀ k, k ≤ 3 → (∀ j, j < k → resp j = .err 429) → resp k = .transport →
        _make_request resp 3 =
          .transportError (k + 1) ((List.range k).map (fun j => 5 * (j + 1)))) := by
  refine ⟨?_, ?_, ?_, ?_, ?_, ?_, ?_⟩
  · exact requestLoop_attempts_le resp 3 4 0
  · intro s h hs
    simp [_make_request, requestLoop, h, hs]
  · intro h
    simp [_make_request, requestLoop, h]
  · intro b h0 h1 h2
    simp [_make_request, requestLoop, h0, h1, h2, FetchResult.withWait]
  · intro h
    have h0 := h 0 (by norm_num)
    have h1 := h 1 (by norm_num)
    have h2 := h 2 (by norm_num)
    have h3 := h 3 (by norm_num)
    simp [_make_request, requestLoop, h0, h1, h2, h3, FetchResult.withWait]
  · intro k s hk hprev herr hs
    interval_cases k
    · simp [_make_request, requestLoop, herr, hs]
    · have h0 := hprev 0 (by norm_num)
      simp [_make_request, requestLoop, h0, herr, hs, FetchResult.withWait,
        List.range_succ]
    · have h0 := hprev 0 (by norm_num)
      have h1 := hprev 1 (by norm_num)
      simp [_make_request, requestLoop, h0, h1, herr, hs, FetchResult.withWait,
        List.range_succ]
    · have h0 := hprev 0 (by norm_num)
      have h1 := hprev 1 (by norm_num)
      have h2 := hprev 2 (by norm_num)
      simp [_make_request, requestLoop, h0, h1, h2, herr, hs, FetchResult.withWait,
        List.range_succ]
  · intro k hk hprev herr
    interval_cases k
    · simp [_make_request, requestLoop, herr]
    · have h0 := hprev 0 (by norm_num)
      simp [_make_request, requestLoop, h0, herr, FetchResult.withWait, List.range_succ]
    · have h0 := hprev 0 (by norm_num)
      have h1 := hprev 1 (by norm_num)
      simp [_make_request, requestLoop, h0, h1, herr, FetchResult.withWait, List.range_succ]
    · have h0 := hprev 0 (by norm_num)
      have h1 := hprev 1 (by norm_num)
      have h2 := hprev 2 (by norm_num)
      simp [_make_request, requestLoop, h0, h1, h2, herr, FetchResult.withWait,
        List.range_succ]

/-- C2 witness: the concrete two-429s-then-200 run. -/
theorem C2_fetcher_retry_witness :
    _make_request respTwo429 3 = .success 7 3 [5, 10] :=
  (C2_fetcher_retry respTwo429).2.2.2.1 7 rfl rfl rfl

/-- C9: the request always carries the fixed api-version and the
currency code, carries `$top = limit` exactly when `limit < 1000`,
carries a filter exactly when some predicate is present, the filter is
the AND-join of the conditions, and the condition list is exactly the
present predicates in the fixed order
{serviceName, serviceFamily, region, skuName(contains), priceType}. -/
theorem C9_filter_builder (a : SearchArgs) :
    (buildParams a).apiVersion = DEFAULT_API_VERSION
    ∧ (buildParams a).currencyCode = a.currency_code
    ∧ (buildParams a).top = (if a.limit < 1000 then some a.limit else none)
    ∧ ((buildParams a).filter = none ↔
        truthyStr a.service_name = false ∧ truthyStr a.service_family = false ∧
        truthyStr a.region = false ∧ truthyStr a.sku_name = false ∧
        truthyStr a.price_type = false)
    ∧ (∀ s, (buildParams a).filter = some s → s = joinAnd (filterConditions a))
    ∧ filterConditions a =
        ([ if truthyStr a.service_name then some (fmtEq "serviceName" (a.service_name.getD "")) else none
         , if truthyStr a.service_family then some (fmtEq "serviceFamily" (a.service_family.getD "")) else none
         , if truthyStr a.region then some (fmtEq "armRegionName" (a.region.getD "")) else none
         , if truthyStr a.sku_name then some (fmtContainsClause "skuName" (a.sku_name.getD "")) else none
         , if truthyStr a.price_type then some (fmtEq "priceType" (a.price_type.getD "")) else none
         ] : List (Option String)).reduceOption := by
  refine ⟨rfl, rfl, rfl, ?_, ?_, ?_⟩
  · rw [← filterConditions_nil_iff]
    simp only [buildParams]
    split <;> simp_all
  · intro s
    simp only [buildParams]
    split <;> simp_all
  · unfold filterConditions
    cases truthyStr a.service_name <;> cases truthyStr a.service_family <;>
      cases truthyStr a.region <;> cases truthyStr a.sku_name <;>
      cases truthyStr a.price_type <;> simp [List.reduceOption]

/-- C9 witness: default arguments produce `$top = 50` and no filter. -/
theorem C9_filter_builder_witness :
    (buildParams {}).top = some 50 ∧ (buildParams {}).filter = none := by
  obtain ⟨-, -, h1, h2, -, -⟩ := C9_filter_builder {}
  exact ⟨by rw [h1]; norm_num, h2.mpr ⟨rfl, rfl, rfl, rfl, rfl⟩⟩

/-- C10: the customer-discount lookup returns 10.0 for every customer;
the tool handler injects that default when `discount_percentage` is
absent (and leaves an explicit value unchanged), so a default
invocation returns the truncated upstream items with the 10% discount
transform applied. -/
theorem C10_default_discount (upstream : Upstream) (arguments : SearchArgs)
    (cid : Option String) :
    (get_customer_discount cid).discount_percentage = 10
    ∧ (arguments.discount_percentage = none →
        handle_azure_price_search upstream arguments =
          search_azure_prices upstream { arguments with discount_percentage := some 10 })
    ∧ (arguments.discount_percentage ≠ none →
        handle_azure_price_search upstream arguments = search_azure_prices upstream arguments)
    ∧ (arguments.discount_percentage = none →
        (handle_azure_price_search upstream arguments).items =
          _apply_discount_to_items
            (truncateItems (upstream (buildParams arguments)).items arguments.limit) 10) := by
  refine ⟨rfl, ?_, ?_, ?_⟩
  · intro h
    simp [handle_azure_price_search, azure_price_search_args, h, get_customer_discount]
  · intro h
    simp [handle_azure_price_search, azure_price_search_args, h]
  · intro h
    have h2 : handle_azure_price_search upstream arguments =
        search_azure_prices upstream { arguments with discount_percentage := some 10 } := by
      simp [handle_azure_price_search, azure_price_search_args, h, get_customer_discount]
    rw [h2, search_azure_prices_items]
    norm_num [applyDiscountOpt]
    rfl

/-- C10 witness: with no explicit discount, an invocation against the
one-item upstream returns the 10%-discounted item. -/
theorem C10_default_discount_witness :
    (handle_azure_price_search oneItemUpstream {}).items =
      _apply_discount_to_items [unitItem] 10 := by
  obtain ⟨-, -, -, h4⟩ := C10_default_discount oneItemUpstream {} none
  simpa [oneItemUpstream, truncateItems] using h4 rfl

theorem foldlMin_mem (vs : List ℚ) : ∀ v : ℚ, vs.foldl min v ∈ v :: vs := by
  induction vs with
  | nil => intro v; simp
  | cons x xs ih =>
    intro v
    simp only [List.foldl_cons]
    rcases List.mem_cons.mp (ih (min v x)) with h1 | h1
    · rw [h1]
      rcases min_choice v x with hm | hm <;> rw [hm] <;> simp
    · simp [List.mem_cons, h1]

theorem foldlMin_le (vs : List ℚ) : ∀ v : ℚ, ∀ q ∈ v :: vs, vs.foldl min v ≤ q := by
  induction vs with
  | nil =>
    intro v q hq
    simp only [List.mem_singleton] at hq
    simp [hq]
  | cons x xs ih =>
    intro v q hq
    simp only [List.foldl_cons]
    rcases List.mem_cons.mp hq with h1 | hq1
    · rw [h1]
      exact le_trans (ih (min v x) (min v x) (List.mem_cons_self _ _)) (min_le_left v x)
    · rcases List.mem_cons.mp hq1 with h2 | hq2
      · rw [h2]
        exact le_trans (ih (min v x) (min v x) (List.mem_cons_self _ _)) (min_le_right v x)
      · exact ih (min v x) q (List.mem_cons_of_mem _ hq2)

/-- C1 counterexample: for the in-range discount 10, an item whose
retailPrice is present but zero comes back with no `originalPrice`
field, so the pre-discount price is not retrievable under a separate
field as the claim states. -/
theorem C1_counterexample :
    zeroItem.retailPrice = some 0
    ∧ (0 : ℚ) < 10 ∧ (10 : ℚ) < 100
    ∧ (_apply_discount_to_items [zeroItem] 10).map (fun i => i.originalPrice) = [none] := by
  refine ⟨rfl, by norm_num, by norm_num, ?_⟩
  rfl

/-- C1 (amended): for 0 < p < 100, every item (and nested savings-plan
offer) whose retailPrice is present and non-zero has it replaced by
`price × (1 − p/100)` rounded to 6 decimals with the original kept
under `originalPrice`; an item or plan with absent or zero retailPrice
is left unchanged (no original stored); a discount that is absent or
≤ 0 leaves the searched items entirely unchanged. -/
theorem C1_discount_transform (pct : ℚ) (hpos : 0 < pct) (hlt : pct < 100) :
    (∀ items : List PriceItem,
      _apply_discount_to_items items pct = items.map (applyDiscountItem pct)
      ∧ (_apply_discount_to_items items pct).length = items.length)
    ∧ (∀ item : PriceItem, ∀ p, item.retailPrice = some p → p ≠ 0 →
        (applyDiscountItem pct item).retailPrice = some (pyRound (p * (1 - pct / 100)) 6)
        ∧ (applyDiscountItem pct item).originalPrice = some p)
    ∧ (∀ item : PriceItem, item.retailPrice = none ∨ item.retailPrice = some 0 →
        (applyDiscountItem pct item).retailPrice = item.retailPrice
        ∧ (applyDiscountItem pct item).originalPrice = item.originalPrice)
    ∧ (∀ item : PriceItem, (applyDiscountItem pct item).savingsPlan =
        if item.savingsPlan ≠ [] then item.savingsPlan.map (applyDiscountPlan pct)
        else item.savingsPlan)
    ∧ (∀ plan : SavingsPlan, ∀ p, plan.retailPrice = some p → p ≠ 0 →
        (applyDiscountPlan pct plan).retailPrice = some (pyRound (p * (1 - pct / 100)) 6)
        ∧ (applyDiscountPlan pct plan).originalPrice = some p)
    ∧ (∀ plan : SavingsPlan, plan.retailPrice = none ∨ plan.retailPrice = some 0 →
        applyDiscountPlan pct plan = plan)
    ∧ (∀ (u : Upstream) (a : SearchArgs) d, a.discount_percentage = some d → d ≤ 0 →
        (search_azure_prices u a).items = truncateItems (u (buildParams a)).items a.limit)
    ∧ (∀ (u : Upstream) (a : SearchArgs), a.discount_percentage = none →
        (search_azure_prices u a).items = truncateItems (u (buildParams a)).items a.limit) := by
  refine ⟨?_, ?_, ?_, ?_, ?_, ?_, ?_, ?_⟩
  · intro items
    exact ⟨rfl, by simp [_apply_discount_to_items]⟩
  · intro item p hp hne
    constructor <;>
      · simp only [applyDiscountItem, hp]
        rw [if_pos hne]
        split <;> rfl
  · intro item h
    rcases h with h | h
    · constructor <;>
        · simp only [applyDiscountItem, h]
          split <;> simp [h]
    · constructor <;>
        · simp only [applyDiscountItem, h]
          rw [if_neg (show ¬((0 : ℚ) ≠ 0) from by norm_num)]
          split <;> simp [h]
  · intro item
    cases hr : item.retailPrice with
    | none =>
      simp only [applyDiscountItem, hr]
      split <;> rfl
    | some p =>
      by_cases hne : p ≠ 0
      · simp only [applyDiscountItem, hr]
        rw [if_pos hne]
        split <;> rfl
      · simp only [applyDiscountItem, hr]
        rw [if_neg hne]
        split <;> rfl
  · intro plan p hp hne
    constructor <;> simp only [applyDiscountPlan, hp] <;> rw [if_pos hne] <;> rfl
  · intro plan h
    rcases h with h | h
    · simp only [applyDiscountPlan, h]
    · simp only [applyDiscountPlan, h]
      rw [if_neg (show ¬((0 : ℚ) ≠ 0) from by norm_num)]
  · intro u a d hd hle
    rw [search_azure_prices_items, hd]
    simp only [applyDiscountOpt]
    rw [if_neg (not_lt.mpr hle)]
  · intro u a h
    rw [search_azure_prices_items, h]
    rfl

/-- C1 witness: discount 10 on a price-1 item yields 0.9 with the
original kept. -/
theorem C1_discount_transform_witness :
    (applyDiscountItem 10 unitItem).retailPrice = some (9 / 10)
    ∧ (applyDiscountItem 10 unitItem).originalPrice = some 1 := by
  obtain ⟨-, h2, -⟩ := C1_discount_transform 10 (by norm_num) (by norm_num)
  obtain ⟨hr, ho⟩ := h2 unitItem 1 rfl (by norm_num)
  refine ⟨?_, ho⟩
  rw [hr]
  norm_num [pyRound, round_eq]

/-- C3 counterexample: with a positive discount supplied, the returned
items are not a prefix of the upstream item list (the first item's
retailPrice was rewritten from 1 to 0.9). -/
theorem C3_counterexample :
    ¬ ((search_azure_prices oneItemUpstream { discount_percentage := some 10 }).items <+:
        (oneItemUpstream (buildParams { discount_percentage := some 10 })).items) := by
  intro hpre
  have hitems : (search_azure_prices oneItemUpstream { discount_percentage := some 10 }).items =
      [applyDiscountItem 10 unitItem] := by
    rw [search_azure_prices_items]
    norm_num [applyDiscountOpt, _apply_discount_to_items, truncateItems, oneItemUpstream]
  have henv : (oneItemUpstream (buildParams { discount_percentage := some 10 })).items =
      [unitItem] := rfl
  rw [hitems, henv] at hpre
  rcases hpre with ⟨t, ht⟩
  simp only [List.singleton_append, List.cons.injEq] at ht
  have h2 := congrArg PriceItem.originalPrice ht.1
  have hL : (applyDiscountItem 10 unitItem).originalPrice = some 1 := by
    norm_num [applyDiscountItem, unitItem]
  rw [hL] at h2
  simp [unitItem] at h2

/-- C3 (amended): for every invocation, `count = len(items)` and
`len(items) ≤ limit`; `has_more` is true exactly when the upstream
envelope carries a (non-empty) NextPageLink; when no positive discount
is supplied the items are a prefix of the upstream order; in general
the items are the discount transform of the defensively re-truncated
upstream prefix. -/
theorem C3_result_normalizer (u : Upstream) (a : SearchArgs) :
    (search_azure_prices u a).count = (search_azure_prices u a).items.length
    ∧ (search_azure_prices u a).items.length ≤ a.limit
    ∧ ((search_azure_prices u a).has_more = true ↔
        ∃ s, (u (buildParams a)).nextPageLink = some s ∧ s ≠ "")
    ∧ (a.discount_percentage = none →
        (search_azure_prices u a).items <+: (u (buildParams a)).items)
    ∧ (∀ d, a.discount_percentage = some d → ¬ 0 < d →
        (search_azure_prices u a).items <+: (u (buildParams a)).items)
    ∧ (search_azure_prices u a).items =
        applyDiscountOpt a.discount_percentage
          (truncateItems (u (buildParams a)).items a.limit) := by
  refine ⟨search_azure_prices_count u a, ?_, ?_, ?_, ?_, search_azure_prices_items u a⟩
  · rw [search_azure_prices_items, applyDiscountOpt_length]
    exact truncateItems_le _ _
  · rw [search_azure_prices_has_more]
    cases hn : (u (buildParams a)).nextPageLink with
    | none => simp [truthyStr]
    | some s => simp [truthyStr]
  · intro h
    rw [search_azure_prices_items, h]
    exact truncateItems_pre _ _
  · intro d hd hnpos
    rw [search_azure_prices_items, hd]
    simp only [applyDiscountOpt]
    rw [if_neg hnpos]
    exact truncateItems_pre _ _

/-- C3 witness: without a discount the result is a prefix of the
upstream list and count equals the item count. -/
theorem C3_result_normalizer_witness :
    (search_azure_prices oneItemUpstream {}).items <+:
      (oneItemUpstream (buildParams {})).items
    ∧ (search_azure_prices oneItemUpstream {}).count =
      (search_azure_prices oneItemUpstream {}).items.length := by
  obtain ⟨h1, -, -, h4, -⟩ := C3_result_normalizer oneItemUpstream {}
  exact ⟨h4 rfl, h1⟩

/-- C4: the min-price policy — over any non-empty sample list the
derived minimum is the least positive sample price when one exists and
the first sample's price otherwise; the two concrete sample lists of
the spec evaluate to 0.096 and 0; and every aggregate produced by
`discover_service_skus` carries exactly this derived minimum. -/
theorem C4_min_price (upstream : Upstream) (hint : String) (region : Option String)
    (cur : String) (limit : ℕ) :
    (∀ samples : List PriceSample, samples ≠ [] →
      ((samples.map (fun s => s.price)).filter (fun p => 0 < p) ≠ [] →
        computeMinPrice samples ∈ (samples.map (fun s => s.price)).filter (fun p => 0 < p)
        ∧ ∀ q ∈ (samples.map (fun s => s.price)).filter (fun p => 0 < p),
            computeMinPrice samples ≤ q)
      ∧ (∀ s rest, (samples.map (fun s => s.price)).filter (fun p => 0 < p) = [] →
          samples = s :: rest → computeMinPrice samples = s.price))
    ∧ computeMinPrice [⟨0, "Hour", "eastus"⟩, ⟨96 / 1000, "Hour", "westus"⟩] = 96 / 1000
    ∧ computeMinPrice [⟨0, "Hour", "eastus"⟩, ⟨0, "Hour", "westus"⟩] = 0
    ∧ (∀ p ∈ (discover_service_skus upstream hint region cur limit).skus,
        p.2.min_price = computeMinPrice p.2.prices) := by
  refine ⟨?_, by norm_num [computeMinPrice, List.filter], by norm_num [computeMinPrice, List.filter], ?_⟩
  · intro samples hne
    constructor
    · intro hpos
      cases hf : (samples.map (fun s => s.price)).filter (fun p => 0 < p) with
      | nil => exact absurd hf hpos
      | cons v vs =>
        simp only [computeMinPrice, hf]
        exact ⟨hf ▸ foldlMin_mem vs v, fun q hq => foldlMin_le vs v q (hf ▸ hq)⟩
    · intro s rest hf hs
      subst hs
      simp only [computeMinPrice, hf]
  · intro p hp
    simp only [discover_service_skus] at hp
    split at hp
    · rcases List.mem_map.mp hp with ⟨q, -, rfl⟩
      rfl
    · simp at hp

/-- C4 witness: the spec's two sample lists, plus a fresh positive
singleton exercising the general characterization. -/
theorem C4_min_price_witness :
    computeMinPrice [⟨0, "Hour", "eastus"⟩, ⟨96 / 1000, "Hour", "westus"⟩] = 96 / 1000
    ∧ computeMinPrice [⟨1, "Hour", "eastus"⟩] = 1 := by
  obtain ⟨hgen, h1, -, -⟩ := C4_min_price emptyUpstream "vm" none "USD" 30
  refine ⟨h1, ?_⟩
  have hf : (([⟨(1 : ℚ), "Hour", "eastus"⟩] : List PriceSample).map
      (fun s => s.price)).filter (fun p => 0 < p) = [1] := by
    norm_num [List.filter]
  have h := (hgen [⟨1, "Hour", "eastus"⟩] (by simp)).1 (by rw [hf]; simp)
  rw [hf] at h
  simpa using h.1

/-- C7: the cost estimator derives `daily = h × 24`,
`monthly = h × H`, `yearly = monthly × 12` from the first matching
item's hourly rate h (money rounded to 2 decimals, rates to 6), and for
each savings plan with rate s derives the plan figures,
`savings_percent = (h − s)/h × 100` guarded to 0 when h = 0, and
`annual_savings = yearly − plan_yearly`. -/
theorem C7_cost_estimator (upstream : Upstream) (sn sk rg cur : String) (H : ℚ)
    (item : PriceItem) (rest : List PriceItem) (h : ℚ)
    (hitems : (search_azure_prices upstream
      { service_name := some sn, sku_name := some sk, region := some rg
        currency_code := cur, limit := 5 }).items = item :: rest)
    (hrate : item.retailPrice = some h) :
    ∃ e, estimate_costs upstream sn sk rg H cur none = .estimate e
      ∧ e.on_demand_pricing.hourly_rate = pyRound h 6
      ∧ e.on_demand_pricing.daily_cost = pyRound (h * 24) 2
      ∧ e.on_demand_pricing.monthly_cost = pyRound (h * H) 2
      ∧ e.on_demand_pricing.yearly_cost = pyRound (h * H * 12) 2
      ∧ e.savings_plans = item.savingsPlan.map (savingsEstimateOf none H h (h * H * 12))
      ∧ ∀ plan : SavingsPlan, ∀ s, plan.retailPrice = some s →
          (savingsEstimateOf none H h (h * H * 12) plan).savings_percent =
            pyRound (if 0 < h then ((h - s) / h) * 100 else 0) 2
          ∧ (savingsEstimateOf none H h (h * H * 12) plan).annual_savings =
            pyRound (h * H * 12 - s * H * 12) 2
          ∧ (savingsEstimateOf none H h (h * H * 12) plan).monthly_cost = pyRound (s * H) 2
          ∧ (savingsEstimateOf none H h (h * H * 12) plan).yearly_cost =
            pyRound (s * H * 12) 2 := by
  simp only [estimate_costs, hitems, hrate]
  refine ⟨_, rfl, rfl, rfl, rfl, rfl, rfl, ?_⟩
  intro plan s hs
  simp only [savingsEstimateOf, hs, discountedRate, Option.getD_some]
  refine ⟨?_, ?_, ?_, ?_⟩ <;> trivial

/-- C7 witness: hourly 0.192 at 730 hours/month gives monthly 140.16
and yearly 1681.92, and the 0.12 plan yields savings percent 37.5. -/
theorem C7_cost_estimator_witness :
    ∃ e, estimate_costs estUpstream "Virtual Machines" "D2s" "eastus" 730 "USD" none =
        .estimate e
      ∧ e.on_demand_pricing.monthly_cost = 14016 / 100
      ∧ e.on_demand_pricing.yearly_cost = 168192 / 100 := by
  obtain ⟨e, he, h6, hd, hm, hy, hsp, hplans⟩ :=
    C7_cost_estimator estUpstream "Virtual Machines" "D2s" "eastus" "USD" 730
      estItem [] (192 / 1000) rfl rfl
  refine ⟨e, he, ?_, ?_⟩
  · rw [hm]; norm_num [pyRound, round_eq]
  · rw [hy]; norm_num [pyRound, round_eq]

theorem search_items_empty (u : Upstream) (h : ∀ p, (u p).items = []) (a : SearchArgs) :
    (search_azure_prices u a).items = [] := by
  rw [search_azure_prices_items, h]
  have ht : truncateItems [] a.limit = [] := by simp [truncateItems]
  rw [ht]
  cases a.discount_percentage with
  | none => rfl
  | some d => simp [applyDiscountOpt, _apply_discount_to_items]

theorem pySetList_nil : pySetList [] = [] := rfl

theorem fuzzySuggestionsOnly_empty (u : Upstream) (h : ∀ p, (u p).items = [])
    (sn sf : Option String) (cur term : String) :
    fuzzySuggestionsOnly u sn sf cur term =
      { items := [], count := 0, has_more := false, currency := cur,
        original_search := if truthyStr sn then sn else sf,
        suggestions := [], match_type := some "suggestions_only" } := by
  have hs : ∀ args : SearchArgs, (search_azure_prices u args).items = [] :=
    search_items_empty u h
  simp [fuzzySuggestionsOnly, hs, pySetList_nil]

/-- C8: when the exact search is empty and the lowercased hint is an
alias-table key, the cascade re-runs the search with the mapped
canonical name and a non-empty re-run terminates tier 1 with
`match_type = exact_mapping`; the table maps "vm" to
"Virtual Machines"; and when every query is empty (so all three tiers
yield nothing) the result is the empty-item object tagged
`match_type = suggestions_only`. -/
theorem C8_fuzzy_resolution (upstream : Upstream)
    (service_name service_family region sku_name price_type : Option String)
    (cur : String) (limit : ℕ) :
    (∀ c, (search_azure_prices upstream
          { service_name := service_name, service_family := service_family,
            region := region, sku_name := sku_name, price_type := price_type,
            currency_code := cur, limit := limit }).items = [] →
        truthyStr service_name = true →
        lookupMapping (strLower (service_name.getD "")) = some c →
        (search_azure_prices upstream
          { service_name := some c, currency_code := cur, limit := limit }).items ≠ [] →
        search_azure_prices_with_fuzzy_matching upstream service_name service_family
            region sku_name price_type cur limit true =
          { search_azure_prices upstream
              { service_name := some c, currency_code := cur, limit := limit } with
              suggestion_used := some c
              original_search := service_name
              match_type := some "exact_mapping" })
    ∧ lookupMapping "vm" = some "Virtual Machines"
    ∧ ((∀ p, (upstream p).items = []) → ∀ hint : String, hint ≠ "" →
        search_azure_prices_with_fuzzy_matching upstream (some hint) none none none none
            cur limit true =
          { items := [], count := 0, has_more := false, currency := cur,
            original_search := some hint, suggestions := [],
            match_type := some "suggestions_only" }) := by
  refine ⟨?_, by rfl, ?_⟩
  · intro c hempty htr hmap hnon
    simp only [search_azure_prices_with_fuzzy_matching]
    rw [if_neg (by simp [hempty])]
    rw [if_pos (by simp [htr])]
    simp only [_find_similar_services, hmap]
    rw [if_neg (by simpa [List.isEmpty_iff] using hnon)]
  · intro hall hint hne
    have hs := search_items_empty upstream hall
    simp only [search_azure_prices_with_fuzzy_matching]
    rw [if_neg (by simp [hs])]
    rw [if_pos (by simp [truthyStr, hne])]
    simp only [_find_similar_services]
    cases hlk : lookupMapping (strLower ((some hint : Option String).getD "")) with
    | none =>
      rw [fuzzySuggestionsOnly_empty upstream hall]
      simp [truthyStr, hne]
    | some c =>
      dsimp only
      rw [if_pos (by simp [hs])]
      rw [fuzzySuggestionsOnly_empty upstream hall]
      simp [truthyStr, hne]

/-- C8 witness: the hint "vm" resolves through tier 1 against an
upstream that only answers the canonical "Virtual Machines" query, and
resolves to `suggestions_only` against an empty upstream. -/
theorem C8_fuzzy_resolution_witness :
    (search_azure_prices_with_fuzzy_matching vmUpstream (some "vm") none none none none
        "USD" 50 true).match_type = some "exact_mapping"
    ∧ (search_azure_prices_with_fuzzy_matching emptyUpstream (some "vm") none none none none
        "USD" 50 true).match_type = some "suggestions_only" := by
  constructor
  · obtain ⟨h1, -, -⟩ :=
      C8_fuzzy_resolution vmUpstream (some "vm") none none none none "USD" 50
    have hempty : (search_azure_prices vmUpstream
        { service_name := some "vm", service_family := none, region := none,
          sku_name := none, price_type := none,
          currency_code := "USD", limit := 50 }).items = [] := by rfl
    have hnon : (search_azure_prices vmUpstream
        { service_name := some "Virtual Machines", currency_code := "USD",
          limit := 50 }).items ≠ [] := by
      rw [show (search_azure_prices vmUpstream
        { service_name := some "Virtual Machines", currency_code := "USD",
          limit := 50 }).items = [vmItem] from rfl]
      simp
    rw [h1 "Virtual Machines" hempty rfl rfl hnon]
  · obtain ⟨-, -, h3⟩ :=
      C8_fuzzy_resolution emptyUpstream (some "vm") none none none none "USD" 50
    rw [h3 (fun _ => rfl) "vm" (by simp)]

theorem searchNoValidate_items (u : Upstream) (a : SearchArgs) :
    (searchNoValidate u a).items =
      applyDiscountOpt a.discount_percentage
        (truncateItems (u (buildParams a)).items a.limit) := rfl

theorem dedupCapSuggest_length :
    ∀ (l : List SkuSuggestion) (seen : List String) (acc : List SkuSuggestion),
      acc.length < 5 → (dedupCapSuggest seen acc l).length ≤ 5 := by
  intro l
  induction l with
  | nil =>
    intro seen acc h
    simp only [dedupCapSuggest, List.length_reverse]
    omega
  | cons s rest ih =>
    intro seen acc h
    simp only [dedupCapSuggest]
    split
    · exact ih seen acc h
    · split
      · simp only [List.length_reverse, List.length_cons]
        omega
      · exact ih _ _ (by simp only [List.length_cons]; omega)

theorem dedupCapSuggest_nodup :
    ∀ (l : List SkuSuggestion) (seen : List String) (acc : List SkuSuggestion),
      (∀ x ∈ acc, seen.contains x.sku_name = true) →
      (acc.map (fun t => t.sku_name)).Nodup →
      ((dedupCapSuggest seen acc l).map (fun t => t.sku_name)).Nodup := by
  intro l
  induction l with
  | nil =>
    intro seen acc hseen hnodup
    simp only [dedupCapSuggest, List.map_reverse]
    exact List.nodup_reverse.mpr hnodup
  | cons s rest ih =>
    intro seen acc hseen hnodup
    simp only [dedupCapSuggest]
    split
    · exact ih seen acc hseen hnodup
    · rename_i hnotin
      have hs : s.sku_name ∉ acc.map (fun t => t.sku_name) := by
        intro hmem
        rcases List.mem_map.mp hmem with ⟨t, ht, hname⟩
        have := hseen t ht
        rw [hname] at this
        exact hnotin this
      split
      · simp only [List.map_reverse]
        exact List.nodup_reverse.mpr (List.nodup_cons.mpr ⟨hs, hnodup⟩)
      · refine ih _ _ ?_ (List.nodup_cons.mpr ⟨hs, hnodup⟩)
        intro x hx
        rcases List.mem_cons.mp hx with h1 | h1
        · rw [h1]
          simp [List.contains_cons]
        · have hmem : x.sku_name ∈ seen := by simpa using hseen x h1
          simp [List.contains_cons]
          exact Or.inr hmem

theorem dedupCapSuggest_subset :
    ∀ (l : List SkuSuggestion) (seen : List String) (acc : List SkuSuggestion),
      ∀ x ∈ dedupCapSuggest seen acc l, x ∈ acc ∨ x ∈ l := by
  intro l
  induction l with
  | nil =>
    intro seen acc x hx
    simp only [dedupCapSuggest, List.mem_reverse] at hx
    exact Or.inl hx
  | cons s rest ih =>
    intro seen acc x hx
    simp only [dedupCapSuggest] at hx
    split at hx
    · rcases ih seen acc x hx with h | h
      · exact Or.inl h
      · exact Or.inr (List.mem_cons_of_mem _ h)
    · split at hx
      · rw [List.mem_reverse] at hx
        rcases List.mem_cons.mp hx with h | h
        · exact Or.inr (h ▸ List.mem_cons_self _ _)
        · exact Or.inl h
      · rcases ih _ _ x hx with h | h
        · rcases List.mem_cons.mp h with h1 | h1
          · exact Or.inr (h1 ▸ List.mem_cons_self _ _)
          · exact Or.inl h1
        · exact Or.inr (List.mem_cons_of_mem _ h)

theorem rawSuggestions_mem (items : List PriceItem) (q : String) :
    ∀ sg ∈ rawSuggestions items q, ∃ item ∈ items,
      item.skuName = some sg.sku_name
      ∧ matchesSkuLower q (strLower sg.sku_name) = true := by
  intro sg hsg
  rcases List.mem_filterMap.mp hsg with ⟨item, hitem, hf⟩
  cases hsk : item.skuName with
  | none =>
    rw [hsk] at hf
    cases hf
  | some isku =>
    rw [hsk] at hf
    dsimp only at hf
    by_cases h1 : (isku != "") = true
    · rw [if_pos h1] at hf
      by_cases h2 : matchesSkuLower q (strLower isku) = true
      · rw [if_pos h2] at hf
        have heq := Option.some.inj hf
        refine ⟨item, hitem, ?_, ?_⟩
        · rw [hsk, ← heq]
        · rw [← heq]
          exact h2
      · rw [if_neg h2] at hf
        cases hf
    · rw [if_neg h1] at hf
      cases hf

theorem filterMap_skuNames_of_truthy :
    ∀ l : List PriceItem, (∀ i ∈ l, truthyStr i.skuName = true) →
      l.filterMap (fun i =>
        match i.skuName with
        | some s => if s != "" then some s else none
        | none => none) = l.map (fun i => i.skuName.getD "") := by
  intro l
  induction l with
  | nil => intro _; rfl
  | cons x xs ih =>
    intro h
    have hx := h x (List.mem_cons_self _ _)
    cases hsk : x.skuName with
    | none =>
      rw [hsk] at hx
      simp [truthyStr] at hx
    | some s =>
      rw [hsk] at hx
      simp only [truthyStr] at hx
      have ihx := ih (fun i hi => h i (List.mem_cons_of_mem _ hi))
      rw [List.filterMap_cons, List.map_cons, ihx]
      rw [hsk]
      dsimp only
      rw [if_pos hx]
      rfl

/-- C6: when a truthy skuName filter yields zero (truncated) items, the
result carries a `sku_validation` descriptor whose suggestion list has
at most 5 entries with pairwise-distinct skuNames, each drawn from the
limit-100 validation-disabled re-query and satisfying the
substring/token-overlap match; when the filter yields more than 10
items, the result carries a clarification listing the first 5 items'
skuNames while all matched items are retained. -/
theorem C6_sku_validation (upstream : Upstream) (a : SearchArgs)
    (hv : a.validate_sku = true) (hsk : truthyStr a.sku_name = true) :
    (truncateItems (upstream (buildParams a)).items a.limit = [] →
      (search_azure_prices upstream a).sku_validation =
        some (_validate_and_suggest_skus upstream a.service_name (a.sku_name.getD "")
          a.currency_code)
      ∧ (_validate_and_suggest_skus upstream a.service_name (a.sku_name.getD "")
          a.currency_code).suggestions.length ≤ 5
      ∧ ((_validate_and_suggest_skus upstream a.service_name (a.sku_name.getD "")
          a.currency_code).suggestions.map (fun t => t.sku_name)).Nodup
      ∧ (∀ sg ∈ (_validate_and_suggest_skus upstream a.service_name (a.sku_name.getD "")
            a.currency_code).suggestions,
          ∃ item ∈ (searchNoValidate upstream
              { service_name := a.service_name, currency_code := a.currency_code,
                limit := 100, validate_sku := false }).items,
            item.skuName = some sg.sku_name
            ∧ matchesSkuLower (strLower (a.sku_name.getD "")) (strLower sg.sku_name) = true)
      ∧ (searchNoValidate upstream
          { service_name := a.service_name, currency_code := a.currency_code,
            limit := 100, validate_sku := false }).items.length ≤ 100)
    ∧ (10 < (truncateItems (upstream (buildParams a)).items a.limit).length →
      (search_azure_prices upstream a).clarification =
        some (clarificationFor (a.sku_name.getD "")
          (truncateItems (upstream (buildParams a)).items a.limit))
      ∧ (clarificationFor (a.sku_name.getD "")
          (truncateItems (upstream (buildParams a)).items a.limit)).suggestions =
        ((truncateItems (upstream (buildParams a)).items a.limit).take 5).filterMap (fun i =>
          match i.skuName with
          | some s => if s != "" then some s else none
          | none => none)
      ∧ ((∀ i ∈ truncateItems (upstream (buildParams a)).items a.limit,
            truthyStr i.skuName = true) →
          (clarificationFor (a.sku_name.getD "")
            (truncateItems (upstream (buildParams a)).items a.limit)).suggestions =
          ((truncateItems (upstream (buildParams a)).items a.limit).take 5).map
            (fun i => i.skuName.getD ""))
      ∧ (search_azure_prices upstream a).items.length =
          (truncateItems (upstream (buildParams a)).items a.limit).length
      ∧ (a.discount_percentage = none →
          (search_azure_prices upstream a).items =
            truncateItems (upstream (buildParams a)).items a.limit)) := by
  constructor
  · intro hempty
    refine ⟨?_, ?_, ?_, ?_, ?_⟩
    · simp only [search_azure_prices]
      rw [if_pos (by simp [hv, hsk, hempty])]
      rfl
    · exact dedupCapSuggest_length _ [] [] (by norm_num)
    · exact dedupCapSuggest_nodup _ [] [] (by simp) (by simp)
    · intro sg hsg
      have hsub := dedupCapSuggest_subset _ [] [] sg hsg
      rcases hsub with h | h
      · simp at h
      · by_cases ht : truthyStr a.service_name = true
        · rw [if_pos ht] at h
          exact rawSuggestions_mem _ _ sg h
        · rw [if_neg ht] at h
          simp at h
    · rw [searchNoValidate_items, applyDiscountOpt_length]
      exact truncateItems_le _ _
  · intro hbig
    refine ⟨?_, rfl, ?_, ?_, ?_⟩
    · simp only [search_azure_prices]
      rw [if_neg (by
        simp only [hv, hsk, Bool.true_and, List.isEmpty_iff]
        intro hcon
        rw [hcon] at hbig
        simp at hbig)]
      rw [if_pos (by simp [hv, hsk, hbig])]
      rfl
    · intro hall
      exact filterMap_skuNames_of_truthy _ (fun i hi => hall i (List.take_subset _ _ hi))
    · rw [search_azure_prices_items, applyDiscountOpt_length]
    · intro hd
      rw [search_azure_prices_items, hd]
      rfl

/-- C6 witness: a truthy SKU filter with zero matches attaches a
validation descriptor with at most 5 suggestions; 12 matches attach a
clarification while all 12 items are retained. -/
theorem C6_sku_validation_witness :
    (∃ v, (search_azure_prices emptyUpstream
        { service_name := some "Virtual Machines", sku_name := some "D2" }).sku_validation =
          some v ∧ v.suggestions.length ≤ 5)
    ∧ (∃ c, (search_azure_prices upstreamC6b
        { service_name := some "Virtual Machines", sku_name := some "S1" }).clarification =
          some c
        ∧ (search_azure_prices upstreamC6b
            { service_name := some "Virtual Machines", sku_name := some "S1" }).items.length =
          12) := by
  constructor
  · obtain ⟨ha, -⟩ := C6_sku_validation emptyUpstream
      { service_name := some "Virtual Machines", sku_name := some "D2" } rfl rfl
    obtain ⟨h1, h2, -, -, -⟩ := ha (by rfl)
    exact ⟨_, h1, h2⟩
  · obtain ⟨-, hb⟩ := C6_sku_validation upstreamC6b
      { service_name := some "Virtual Machines", sku_name := some "S1" } rfl rfl
    obtain ⟨h1, -, -, h4, -⟩ := hb (by norm_num [truncateItems, upstreamC6b])
    refine ⟨_, h1, ?_⟩
    rw [h4]
    norm_num [truncateItems, upstreamC6b]



theorem assocFind_cons {α : Type} (p : String × α) (rest : List (String × α)) (k : String) :
    assocFind (p :: rest) k =
      if (p.1 == k) = true then some p.2 else assocFind rest k := by
  by_cases hp : (p.1 == k) = true
  · rw [if_pos hp]
    simp only [assocFind]
    rw [List.find?_cons_of_pos rest (show (fun q : String × α => q.1 == k) p = true from hp)]
    rfl
  · rw [if_neg hp]
    simp only [assocFind]
    rw [List.find?_cons_of_neg rest
      (show ¬ (fun q : String × α => q.1 == k) p = true from hp)]

theorem assocUpdateF_cons_pos {α : Type} (p : String × α) (rest : List (String × α))
    (k : String) (f : α → α) (hp : (p.1 == k) = true) :
    assocUpdateF (p :: rest) k f = (p.1, f p.2) :: assocUpdateF rest k f := by
  simp only [assocUpdateF, List.map_cons]
  rw [if_pos hp]

theorem assocUpdateF_cons_neg {α : Type} (p : String × α) (rest : List (String × α))
    (k : String) (f : α → α) (hp : ¬ (p.1 == k) = true) :
    assocUpdateF (p :: rest) k f = p :: assocUpdateF rest k f := by
  simp only [assocUpdateF, List.map_cons]
  rw [if_neg hp]

theorem assocUpdateF_keys {α : Type} (l : List (String × α)) (k : String) (f : α → α) :
    (assocUpdateF l k f).map Prod.fst = l.map Prod.fst := by
  induction l with
  | nil => rfl
  | cons p rest ih =>
    by_cases hp : (p.1 == k) = true
    · rw [assocUpdateF_cons_pos _ _ _ _ hp]
      simp only [List.map_cons, ih]
    · rw [assocUpdateF_cons_neg _ _ _ _ hp]
      simp only [List.map_cons, ih]

theorem assocFind_updateF_self {α : Type} (l : List (String × α)) (k : String) (f : α → α) :
    assocFind (assocUpdateF l k f) k = (assocFind l k).map f := by
  induction l with
  | nil => rfl
  | cons p rest ih =>
    by_cases hp : (p.1 == k) = true
    · rw [assocUpdateF_cons_pos _ _ _ _ hp, assocFind_cons, assocFind_cons]
      simp [hp]
    · rw [assocUpdateF_cons_neg _ _ _ _ hp, assocFind_cons, assocFind_cons]
      simp [hp, ih]

theorem assocFind_updateF_ne {α : Type} (l : List (String × α)) (key k : String)
    (f : α → α) (h : ¬ k = key) :
    assocFind (assocUpdateF l key f) k = assocFind l k := by
  induction l with
  | nil => rfl
  | cons p rest ih =>
    by_cases hp : (p.1 == key) = true
    · have hp1 : p.1 = key := by simpa using hp
      have hne2 : ¬ (p.1 == k) = true := by
        simp only [beq_iff_eq]
        rw [hp1]
        exact fun hc => h hc.symm
      rw [assocUpdateF_cons_pos _ _ _ _ hp, assocFind_cons, assocFind_cons]
      simp only [hne2, if_false]
      exact ih
    · rw [assocUpdateF_cons_neg _ _ _ _ hp, assocFind_cons, assocFind_cons]
      by_cases hk : (p.1 == k) = true
      · rw [if_pos hk, if_pos hk]
      · rw [if_neg hk, if_neg hk]
        exact ih

theorem assocFind_append_some {α : Type} (l t : List (String × α)) (k : String) (v : α)
    (h : assocFind l k = some v) : assocFind (l ++ t) k = some v := by
  induction l with
  | nil => simp [assocFind] at h
  | cons p rest ih =>
    rw [List.cons_append, assocFind_cons]
    rw [assocFind_cons] at h
    by_cases hp : (p.1 == k) = true
    · rw [if_pos hp] at h ⊢
      exact h
    · rw [if_neg hp] at h ⊢
      exact ih h

theorem assocFind_append_single_none {α : Type} (l : List (String × α)) (kk k : String)
    (v : α) (h : assocFind l k = none) (hne : ¬ kk = k) :
    assocFind (l ++ [(kk, v)]) k = none := by
  induction l with
  | nil =>
    rw [List.nil_append, assocFind_cons]
    rw [if_neg (by simpa using hne)]
    rfl
  | cons p rest ih =>
    rw [List.cons_append, assocFind_cons]
    rw [assocFind_cons] at h
    by_cases hp : (p.1 == k) = true
    · rw [if_pos hp] at h
      simp at h
    · rw [if_neg hp] at h ⊢
      exact ih h

theorem assocFind_append_single_self {α : Type} (l : List (String × α)) (k : String)
    (v : α) (h : assocFind l k = none) :
    assocFind (l ++ [(k, v)]) k = some v := by
  induction l with
  | nil =>
    rw [List.nil_append, assocFind_cons]
    simp
  | cons p rest ih =>
    rw [List.cons_append, assocFind_cons]
    rw [assocFind_cons] at h
    by_cases hp : (p.1 == k) = true
    · rw [if_pos hp] at h
      simp at h
    · rw [if_neg hp] at h ⊢
      exact ih h

theorem assocFind_some_mem {α : Type} (l : List (String × α)) (k : String) (v : α)
    (h : assocFind l k = some v) : k ∈ l.map Prod.fst := by
  induction l with
  | nil => simp [assocFind] at h
  | cons p rest ih =>
    rw [assocFind_cons] at h
    simp only [List.map_cons, List.mem_cons]
    by_cases hp : (p.1 == k) = true
    · have hp1 : p.1 = k := by simpa using hp
      exact Or.inl hp1.symm
    · rw [if_neg hp] at h
      exact Or.inr (ih h)

theorem assocFind_eq_none_of_not_mem {α : Type} (l : List (String × α)) (k : String)
    (h : k ∉ l.map Prod.fst) : assocFind l k = none := by
  induction l with
  | nil => rfl
  | cons p rest ih =>
    simp only [List.map_cons, List.mem_cons] at h
    push_neg at h
    rw [assocFind_cons]
    rw [if_neg (by simp only [beq_iff_eq]; exact fun hc => h.1 hc.symm)]
    exact ih h.2

theorem assocFind_of_mem_nodup {α : Type} (l : List (String × α)) (k : String) (v : α)
    (hnd : (l.map Prod.fst).Nodup) (hmem : (k, v) ∈ l) : assocFind l k = some v := by
  induction l with
  | nil => simp at hmem
  | cons p rest ih =>
    simp only [List.map_cons, List.nodup_cons] at hnd
    rcases List.mem_cons.mp hmem with h1 | h1
    · rw [← h1, assocFind_cons]
      simp
    · have hk : k ∈ rest.map Prod.fst :=
        List.mem_map.mpr ⟨(k, v), h1, rfl⟩
      have hp : ¬ (p.1 == k) = true := by
        simp only [beq_iff_eq]
        intro hc
        exact hnd.1 (hc ▸ hk)
      rw [assocFind_cons, if_neg hp]
      exact ih hnd.2 h1

theorem assocFind_mem_isSome {α : Type} (l : List (String × α)) (k : String)
    (h : k ∈ l.map Prod.fst) : ∃ v, assocFind l k = some v := by
  induction l with
  | nil => simp at h
  | cons p rest ih =>
    rw [assocFind_cons]
    by_cases hp : (p.1 == k) = true
    · exact ⟨p.2, by rw [if_pos hp]⟩
    · rw [if_neg hp]
      apply ih
      simp only [List.map_cons, List.mem_cons] at h
      rcases h with h1 | h1
      · exact absurd (by simp [h1]) hp
      · exact h1

theorem mem_assocUpdateF {α : Type} (l : List (String × α)) (key : String) (f : α → α) :
    ∀ q ∈ assocUpdateF l key f, q ∈ l ∨ ∃ p ∈ l, (p.1 == key) = true ∧ q = (p.1, f p.2) := by
  intro q hq
  rcases List.mem_map.mp hq with ⟨p, hp, hg⟩
  try dsimp only at hg
  by_cases hc : (p.1 == key) = true
  · rw [if_pos hc] at hg
    exact Or.inr ⟨p, hp, hc, hg.symm⟩
  · rw [if_neg hc] at hg
    exact Or.inl (hg ▸ hp)

theorem setAdd_nodup (l : List String) (r : String) (h : l.Nodup) : (setAdd l r).Nodup := by
  unfold setAdd
  split
  · exact h
  · rename_i hc
    have hr : r ∉ l := by simpa using hc
    refine List.Nodup.append h (List.nodup_singleton _) ?_
    intro x hx hx2
    simp only [List.mem_singleton] at hx2
    subst hx2
    exact hr hx

theorem addServiceSkuItem_keys (s : List (String × SkuAgg)) (i : PriceItem) :
    (addServiceSkuItem s i).map Prod.fst =
      match assocFind s (i.skuName.getD "Unknown") with
      | some _ => s.map Prod.fst
      | none => s.map Prod.fst ++ [i.skuName.getD "Unknown"] := by
  simp only [addServiceSkuItem]
  cases hf : assocFind s (i.skuName.getD "Unknown") with
  | some a =>
    try dsimp only
    rw [assocUpdateF_keys]
  | none =>
    try dsimp only
    rw [assocUpdateF_keys]
    simp

theorem addServiceSkuItem_stable (s : List (String × SkuAgg)) (i : PriceItem) (k : String)
    (a : SkuAgg) (h : assocFind s k = some a) :
    ∃ a', assocFind (addServiceSkuItem s i) k = some a'
      ∧ a'.product_name = a.product_name ∧ a'.arm_sku_name = a.arm_sku_name := by
  simp only [addServiceSkuItem]
  by_cases hk : k = i.skuName.getD "Unknown"
  · rw [← hk, h]
    try dsimp only
    rw [assocFind_updateF_self, h]
    exact ⟨_, rfl, rfl, rfl⟩
  · cases hf : assocFind s (i.skuName.getD "Unknown") with
    | some b =>
      try dsimp only
      rw [assocFind_updateF_ne _ _ _ _ hk, h]
      exact ⟨a, rfl, rfl, rfl⟩
    | none =>
      try dsimp only
      rw [assocFind_updateF_ne _ _ _ _ hk]
      rw [assocFind_append_some _ _ _ _ h]
      exact ⟨a, rfl, rfl, rfl⟩

theorem foldl_addService_stable :
    ∀ (items : List PriceItem) (s : List (String × SkuAgg)) (k : String) (a : SkuAgg),
      assocFind s k = some a →
      ∃ a', assocFind (items.foldl addServiceSkuItem s) k = some a'
        ∧ a'.product_name = a.product_name ∧ a'.arm_sku_name = a.arm_sku_name := by
  intro items
  induction items with
  | nil => exact fun s k a h => ⟨a, h, rfl, rfl⟩
  | cons i rest ih =>
    intro s k a h
    simp only [List.foldl_cons]
    obtain ⟨a1, h1, hp1, ha1⟩ := addServiceSkuItem_stable s i k a h
    obtain ⟨a2, h2, hp2, ha2⟩ := ih _ k a1 h1
    exact ⟨a2, h2, hp2.trans hp1, ha2.trans ha1⟩

theorem foldl_addService_fresh :
    ∀ (items : List PriceItem) (s : List (String × SkuAgg)) (k : String),
      assocFind s k = none →
      ∀ i₀, items.find? (fun it => it.skuName.getD "Unknown" == k) = some i₀ →
      ∃ a, assocFind (items.foldl addServiceSkuItem s) k = some a
        ∧ a.product_name = i₀.productName.getD "Unknown"
        ∧ a.arm_sku_name = i₀.armSkuName.getD "Unknown" := by
  intro items
  induction items with
  | nil =>
    intro s k h i₀ hf
    simp at hf
  | cons i rest ih =>
    intro s k h i₀ hf
    simp only [List.foldl_cons]
    by_cases hi : (i.skuName.getD "Unknown" == k) = true
    · rw [List.find?_cons_of_pos rest
        (show (fun it : PriceItem => it.skuName.getD "Unknown" == k) i = true from hi)] at hf
      have hi0 : i₀ = i := by
        have := Option.some.inj hf
        exact this.symm
      rw [hi0]
      have hkey : i.skuName.getD "Unknown" = k := by simpa using hi
      have hstep : ∃ b, assocFind (addServiceSkuItem s i) k = some b
          ∧ b.product_name = i.productName.getD "Unknown"
          ∧ b.arm_sku_name = i.armSkuName.getD "Unknown" := by
        simp only [addServiceSkuItem, hkey, h]
        try dsimp only
        rw [assocFind_updateF_self]
        rw [assocFind_append_single_self _ _ _ h]
        exact ⟨_, rfl, rfl, rfl⟩
      obtain ⟨b, hb, hbp, hba⟩ := hstep
      obtain ⟨a2, h2, hp2, ha2⟩ := foldl_addService_stable rest _ k b hb
      exact ⟨a2, h2, hp2.trans hbp, ha2.trans hba⟩
    · rw [List.find?_cons_of_neg rest
        (show ¬ (fun it : PriceItem => it.skuName.getD "Unknown" == k) i = true from hi)] at hf
      have hkne : ¬ k = i.skuName.getD "Unknown" := by
        intro hc
        exact hi (by simp [hc])
      have hstep : assocFind (addServiceSkuItem s i) k = none := by
        simp only [addServiceSkuItem]
        cases hfi : assocFind s (i.skuName.getD "Unknown") with
        | some b =>
          try dsimp only
          rw [assocFind_updateF_ne _ _ _ _ hkne, h]
        | none =>
          try dsimp only
          rw [assocFind_updateF_ne _ _ _ _ hkne]
          exact assocFind_append_single_none _ _ _ _ h (fun hc => hkne hc.symm)
      exact ih _ k hstep i₀ hf

theorem foldl_addService_keys_nodup :
    ∀ (items : List PriceItem) (s : List (String × SkuAgg)),
      (s.map Prod.fst).Nodup → ((items.foldl addServiceSkuItem s).map Prod.fst).Nodup := by
  intro items
  induction items with
  | nil => exact fun s h => h
  | cons i rest ih =>
    intro s h
    simp only [List.foldl_cons]
    apply ih
    rw [addServiceSkuItem_keys]
    cases hf : assocFind s (i.skuName.getD "Unknown") with
    | some a => exact h
    | none =>
      try dsimp only
      have hnotmem : (i.skuName.getD "Unknown") ∉ s.map Prod.fst := by
        intro hmem
        obtain ⟨v, hv⟩ := assocFind_mem_isSome s _ hmem
        rw [hv] at hf
        simp at hf
      refine List.Nodup.append h (List.nodup_singleton _) ?_
      intro x hx hx2
      simp only [List.mem_singleton] at hx2
      subst hx2
      exact hnotmem hx

theorem foldl_addService_keys_toFinset :
    ∀ (items : List PriceItem) (s : List (String × SkuAgg)),
      ((items.foldl addServiceSkuItem s).map Prod.fst).toFinset =
        (s.map Prod.fst).toFinset ∪
          (items.map (fun i => i.skuName.getD "Unknown")).toFinset := by
  intro items
  induction items with
  | nil => intro s; simp
  | cons i rest ih =>
    intro s
    simp only [List.foldl_cons, List.map_cons, List.toFinset_cons]
    rw [ih]
    have hstep : ((addServiceSkuItem s i).map Prod.fst).toFinset =
        insert (i.skuName.getD "Unknown") (s.map Prod.fst).toFinset := by
      rw [addServiceSkuItem_keys]
      cases hf : assocFind s (i.skuName.getD "Unknown") with
      | some a =>
        try dsimp only
        have hmem := assocFind_some_mem _ _ _ hf
        rw [Finset.insert_eq_self.mpr (List.mem_toFinset.mpr hmem)]
      | none =>
        try dsimp only
        rw [List.toFinset_append]
        ext x
        simp [or_comm]
    rw [hstep, Finset.insert_union, Finset.union_insert]

theorem foldl_addService_regions_nodup :
    ∀ (items : List PriceItem) (s : List (String × SkuAgg)),
      (∀ p ∈ s, p.2.regions.Nodup) →
      ∀ p ∈ items.foldl addServiceSkuItem s, p.2.regions.Nodup := by
  intro items
  induction items with
  | nil => exact fun s h => h
  | cons i rest ih =>
    intro s h
    simp only [List.foldl_cons]
    apply ih
    intro p hp
    simp only [addServiceSkuItem] at hp
    cases hf : assocFind s (i.skuName.getD "Unknown") with
    | some a =>
      rw [hf] at hp
      dsimp only at hp
      rcases mem_assocUpdateF _ _ _ p hp with h1 | ⟨q, hq, -, rfl⟩
      · exact h p h1
      · exact setAdd_nodup _ _ (h q hq)
    | none =>
      rw [hf] at hp
      dsimp only at hp
      rcases mem_assocUpdateF _ _ _ p hp with h1 | ⟨q, hq, -, rfl⟩
      · rcases List.mem_append.mp h1 with h2 | h2
        · exact h p h2
        · simp only [List.mem_singleton] at h2
          rw [h2]
          simp
      · rcases List.mem_append.mp hq with h2 | h2
        · exact setAdd_nodup _ _ (h q h2)
        · simp only [List.mem_singleton] at h2
          have hq2 : q.2.regions.Nodup := by
            rw [h2]
            simp
          exact setAdd_nodup _ _ hq2

theorem truthyStr_some (o : Option String) (h : truthyStr o = true) :
    ∃ s, o = some s ∧ ¬ s = "" := by
  cases o with
  | none => simp [truthyStr] at h
  | some s => exact ⟨s, rfl, by simpa [truthyStr] using h⟩

theorem addDiscoverSkuItem_skip_none (s : List (String × DiscoveredSku)) (i : PriceItem)
    (h : i.skuName = none) : addDiscoverSkuItem s i = s := by
  simp [addDiscoverSkuItem, h]

theorem addDiscoverSkuItem_skip_empty (s : List (String × DiscoveredSku)) (i : PriceItem)
    (h : i.skuName = some "") : addDiscoverSkuItem s i = s := by
  simp [addDiscoverSkuItem, h]

theorem addDiscoverSkuItem_create (s : List (String × DiscoveredSku)) (i : PriceItem)
    (sn : String) (hsn : i.skuName = some sn) (hne : ¬ sn = "")
    (hf : assocFind s sn = none) :
    addDiscoverSkuItem s i = s ++ [(sn,
      { sku_name := sn
        arm_sku_name := i.armSkuName
        product_name := i.productName
        sample_price := i.retailPrice.getD 0
        unit_of_measure := i.unitOfMeasure
        meter_name := i.meterName
        sample_region := i.armRegionName
        available_regions :=
          if truthyStr i.armRegionName then [i.armRegionName.getD ""] else [] })] := by
  simp [addDiscoverSkuItem, hsn, hne, hf]

theorem addDiscoverSkuItem_found (s : List (String × DiscoveredSku)) (i : PriceItem)
    (sn : String) (sku : DiscoveredSku) (hsn : i.skuName = some sn) (hne : ¬ sn = "")
    (hf : assocFind s sn = some sku) :
    addDiscoverSkuItem s i =
      if (truthyStr i.armRegionName &&
          !(sku.available_regions.contains (i.armRegionName.getD ""))) = true then
        assocUpdateF s sn (fun t =>
          { t with available_regions := t.available_regions ++ [i.armRegionName.getD ""] })
      else s := by
  simp [addDiscoverSkuItem, hsn, hne, hf]

theorem addDiscoverSkuItem_keys_truthy (s : List (String × DiscoveredSku)) (i : PriceItem)
    (sn : String) (hsn : i.skuName = some sn) (hne : ¬ sn = "") :
    (addDiscoverSkuItem s i).map Prod.fst =
      match assocFind s sn with
      | some _ => s.map Prod.fst
      | none => s.map Prod.fst ++ [sn] := by
  cases hf : assocFind s sn with
  | some sku =>
    rw [addDiscoverSkuItem_found s i sn sku hsn hne hf]
    split
    · rw [assocUpdateF_keys]
    · rfl
  | none =>
    rw [addDiscoverSkuItem_create s i sn hsn hne hf]
    simp

theorem addDiscoverSkuItem_stable (s : List (String × DiscoveredSku)) (i : PriceItem)
    (k : String) (a : DiscoveredSku) (h : assocFind s k = some a) :
    ∃ a', assocFind (addDiscoverSkuItem s i) k = some a'
      ∧ a'.product_name = a.product_name ∧ a'.arm_sku_name = a.arm_sku_name := by
  cases hsn : i.skuName with
  | none =>
    rw [addDiscoverSkuItem_skip_none s i hsn]
    exact ⟨a, h, rfl, rfl⟩
  | some sn =>
    by_cases hne : sn = ""
    · rw [addDiscoverSkuItem_skip_empty s i (by rw [hsn, hne])]
      exact ⟨a, h, rfl, rfl⟩
    · cases hf : assocFind s sn with
      | some sku =>
        rw [addDiscoverSkuItem_found s i sn sku hsn hne hf]
        split
        · by_cases hk : k = sn
          · subst hk
            rw [assocFind_updateF_self, h]
            exact ⟨_, rfl, rfl, rfl⟩
          · rw [assocFind_updateF_ne _ _ _ _ hk, h]
            exact ⟨a, rfl, rfl, rfl⟩
        · exact ⟨a, h, rfl, rfl⟩
      | none =>
        by_cases hk : k = sn
        · rw [hk] at h
          rw [h] at hf
          simp at hf
        · rw [addDiscoverSkuItem_create s i sn hsn hne hf]
          exact ⟨a, assocFind_append_some _ _ _ _ h, rfl, rfl⟩

theorem foldl_addDiscover_stable :
    ∀ (items : List PriceItem) (s : List (String × DiscoveredSku)) (k : String)
      (a : DiscoveredSku),
      assocFind s k = some a →
      ∃ a', assocFind (items.foldl addDiscoverSkuItem s) k = some a'
        ∧ a'.product_name = a.product_name ∧ a'.arm_sku_name = a.arm_sku_name := by
  intro items
  induction items with
  | nil => exact fun s k a h => ⟨a, h, rfl, rfl⟩
  | cons i rest ih =>
    intro s k a h
    simp only [List.foldl_cons]
    obtain ⟨a1, h1, hp1, ha1⟩ := addDiscoverSkuItem_stable s i k a h
    obtain ⟨a2, h2, hp2, ha2⟩ := ih _ k a1 h1
    exact ⟨a2, h2, hp2.trans hp1, ha2.trans ha1⟩

theorem foldl_addDiscover_fresh :
    ∀ (items : List PriceItem) (s : List (String × DiscoveredSku)) (k : String),
      (∀ i ∈ items, truthyStr i.skuName = true) →
      assocFind s k = none →
      ∀ i₀, items.find? (fun it => it.skuName.getD "" == k) = some i₀ →
      ∃ a, assocFind (items.foldl addDiscoverSkuItem s) k = some a
        ∧ a.product_name = i₀.productName ∧ a.arm_sku_name = i₀.armSkuName := by
  intro items
  induction items with
  | nil =>
    intro s k _ h i₀ hf
    simp at hf
  | cons i rest ih =>
    intro s k htr h i₀ hf
    obtain ⟨sn, hsn, hne⟩ := truthyStr_some _ (htr i (List.mem_cons_self _ _))
    simp only [List.foldl_cons]
    by_cases hi : (i.skuName.getD "" == k) = true
    · rw [List.find?_cons_of_pos rest
        (show (fun it : PriceItem => it.skuName.getD "" == k) i = true from hi)] at hf
      have hi0 : i₀ = i := (Option.some.inj hf).symm
      rw [hi0]
      have hkey : sn = k := by
        have h3 : i.skuName.getD "" = k := by simpa using hi
        rw [hsn] at h3
        simpa using h3
      have hstep : ∃ b, assocFind (addDiscoverSkuItem s i) k = some b
          ∧ b.product_name = i.productName ∧ b.arm_sku_name = i.armSkuName := by
        rw [addDiscoverSkuItem_create s i sn hsn hne (by rw [hkey]; exact h)]
        rw [hkey]
        rw [assocFind_append_single_self _ _ _ h]
        exact ⟨_, rfl, rfl, rfl⟩
      obtain ⟨b, hb, hbp, hba⟩ := hstep
      obtain ⟨a2, h2, hp2, ha2⟩ := foldl_addDiscover_stable rest _ k b hb
      exact ⟨a2, h2, hp2.trans hbp, ha2.trans hba⟩
    · rw [List.find?_cons_of_neg rest
        (show ¬ (fun it : PriceItem => it.skuName.getD "" == k) i = true from hi)] at hf
      have hkne : ¬ k = sn := by
        intro hc
        apply hi
        rw [hsn]
        simp [hc]
      have hstep : assocFind (addDiscoverSkuItem s i) k = none := by
        cases hfi : assocFind s sn with
        | some sku =>
          rw [addDiscoverSkuItem_found s i sn sku hsn hne hfi]
          split
          · rw [assocFind_updateF_ne _ _ _ _ hkne]
            exact h
          · exact h
        | none =>
          rw [addDiscoverSkuItem_create s i sn hsn hne hfi]
          exact assocFind_append_single_none _ _ _ _ h (fun hc => hkne hc.symm)
      exact ih _ k (fun j hj => htr j (List.mem_cons_of_mem _ hj)) hstep i₀ hf

theorem foldl_addDiscover_nodup_inv :
    ∀ (items : List PriceItem) (s : List (String × DiscoveredSku)),
      (∀ i ∈ items, truthyStr i.skuName = true) →
      (s.map Prod.fst).Nodup →
      (∀ p ∈ s, p.2.available_regions.Nodup) →
      ((items.foldl addDiscoverSkuItem s).map Prod.fst).Nodup
      ∧ ∀ p ∈ items.foldl addDiscoverSkuItem s, p.2.available_regions.Nodup := by
  intro items
  induction items with
  | nil => exact fun s _ h1 h2 => ⟨h1, h2⟩
  | cons i rest ih =>
    intro s htr h1 h2
    simp only [List.foldl_cons]
    obtain ⟨sn, hsn, hne⟩ := truthyStr_some _ (htr i (List.mem_cons_self _ _))
    have hkeys : ((addDiscoverSkuItem s i).map Prod.fst).Nodup := by
      rw [addDiscoverSkuItem_keys_truthy s i sn hsn hne]
      cases hf : assocFind s sn with
      | some sku => exact h1
      | none =>
        try dsimp only
        have hnm : sn ∉ s.map Prod.fst := by
          intro hmem
          obtain ⟨v, hv⟩ := assocFind_mem_isSome s _ hmem
          rw [hv] at hf
          simp at hf
        refine List.Nodup.append h1 (List.nodup_singleton _) ?_
        intro x hx hx2
        simp only [List.mem_singleton] at hx2
        subst hx2
        exact hnm hx
    have hreg : ∀ p ∈ addDiscoverSkuItem s i, p.2.available_regions.Nodup := by
      cases hf : assocFind s sn with
      | some sku =>
        rw [addDiscoverSkuItem_found s i sn sku hsn hne hf]
        split
        · rename_i hcond
          intro p hp
          rcases mem_assocUpdateF _ _ _ p hp with hmem | ⟨q, hq, hqk, rfl⟩
          · exact h2 p hmem
          · have hq1 : q.1 = sn := by simpa using hqk
            have hfq : assocFind s sn = some q.2 := by
              rw [← hq1]
              exact assocFind_of_mem_nodup s q.1 q.2 h1 (by simpa using hq)
            have hq2 : q.2 = sku := Option.some.inj (hfq.symm.trans hf)
            have hnodup_q : q.2.available_regions.Nodup := h2 q hq
            have hrnotin : (i.armRegionName.getD "") ∉ q.2.available_regions := by
              rw [hq2]
              have h5 := hcond
              rw [Bool.and_eq_true] at h5
              have h4 : sku.available_regions.contains (i.armRegionName.getD "") = false := by
                simpa using h5.2
              simpa using h4
            refine List.Nodup.append hnodup_q (List.nodup_singleton _) ?_
            intro x hx hx2
            simp only [List.mem_singleton] at hx2
            subst hx2
            exact hrnotin hx
        · exact h2
      | none =>
        rw [addDiscoverSkuItem_create s i sn hsn hne hf]
        intro p hp
        rcases List.mem_append.mp hp with hmem | hmem
        · exact h2 p hmem
        · simp only [List.mem_singleton] at hmem
          rw [hmem]
          split <;> simp
    exact ih _ (fun j hj => htr j (List.mem_cons_of_mem _ hj)) hkeys hreg

theorem foldl_addDiscover_keys_toFinset :
    ∀ (items : List PriceItem) (s : List (String × DiscoveredSku)),
      (∀ i ∈ items, truthyStr i.skuName = true) →
      ((items.foldl addDiscoverSkuItem s).map Prod.fst).toFinset =
        (s.map Prod.fst).toFinset ∪ (items.map (fun i => i.skuName.getD "")).toFinset := by
  intro items
  induction items with
  | nil => intro s _; simp
  | cons i rest ih =>
    intro s htr
    obtain ⟨sn, hsn, hne⟩ := truthyStr_some _ (htr i (List.mem_cons_self _ _))
    simp only [List.foldl_cons, List.map_cons, List.toFinset_cons]
    rw [ih _ (fun j hj => htr j (List.mem_cons_of_mem _ hj))]
    have hstep : ((addDiscoverSkuItem s i).map Prod.fst).toFinset =
        insert (i.skuName.getD "") (s.map Prod.fst).toFinset := by
      rw [addDiscoverSkuItem_keys_truthy s i sn hsn hne]
      rw [hsn]
      simp only [Option.getD_some]
      cases hf : assocFind s sn with
      | some sku =>
        try dsimp only
        rw [Finset.insert_eq_self.mpr (List.mem_toFinset.mpr (assocFind_some_mem _ _ _ hf))]
      | none =>
        try dsimp only
        rw [List.toFinset_append]
        ext x
        simp [or_comm]
    rw [hstep, Finset.insert_union, Finset.union_insert]

theorem map_getD_eq_filterMap (d : String) :
    ∀ (items : List PriceItem), (∀ i ∈ items, truthyStr i.skuName = true) →
      items.map (fun i => i.skuName.getD d) = items.filterMap PriceItem.skuName := by
  intro items
  induction items with
  | nil => intro _; rfl
  | cons x xs ih =>
    intro h
    obtain ⟨s, hsk, -⟩ := truthyStr_some _ (h x (List.mem_cons_self _ _))
    rw [List.map_cons, List.filterMap_cons, ih (fun i hi => h i (List.mem_cons_of_mem _ hi))]
    rw [show PriceItem.skuName x = some s from hsk]
    rfl

/-- C5: over any item list whose entries carry a truthy skuName, both
SKU-grouping passes produce one aggregate per distinct skuName value
(keys are duplicate-free and the number of aggregates equals the number
of distinct skuNames), the first occurrence of each skuName seeds the
aggregate's productName and armSkuName, and no aggregate's region
collection contains duplicates. -/
theorem C5_sku_aggregator (items : List PriceItem)
    (h : ∀ i ∈ items, truthyStr i.skuName = true) :
    ((aggregateSkus items).map Prod.fst).Nodup
    ∧ (aggregateSkus items).length = (items.filterMap PriceItem.skuName).toFinset.card
    ∧ (∀ k agg, assocFind (aggregateSkus items) k = some agg →
        ∃ i₀, items.find? (fun it => it.skuName.getD "Unknown" == k) = some i₀
          ∧ agg.product_name = i₀.productName.getD "Unknown"
          ∧ agg.arm_sku_name = i₀.armSkuName.getD "Unknown")
    ∧ (∀ p ∈ aggregateSkus items, p.2.regions.Nodup)
    ∧ ((aggregateDiscoverSkus items).map Prod.fst).Nodup
    ∧ (aggregateDiscoverSkus items).length =
        (items.filterMap PriceItem.skuName).toFinset.card
    ∧ (∀ k sku, assocFind (aggregateDiscoverSkus items) k = some sku →
        ∃ i₀, items.find? (fun it => it.skuName.getD "" == k) = some i₀
          ∧ sku.product_name = i₀.productName ∧ sku.arm_sku_name = i₀.armSkuName)
    ∧ (∀ p ∈ aggregateDiscoverSkus items, p.2.available_regions.Nodup) := by
  have hndS := foldl_addService_keys_nodup items [] (by simp)
  have htfS := foldl_addService_keys_toFinset items []
  have hmapU := map_getD_eq_filterMap "Unknown" items h
  have hmapE := map_getD_eq_filterMap "" items h
  have hinvD := foldl_addDiscover_nodup_inv items [] h (by simp) (by simp)
  have htfD := foldl_addDiscover_keys_toFinset items [] h
  refine ⟨hndS, ?_, ?_, ?_, hinvD.1, ?_, ?_, hinvD.2⟩
  · calc (aggregateSkus items).length
        = ((aggregateSkus items).map Prod.fst).length := (List.length_map _ _).symm
      _ = ((aggregateSkus items).map Prod.fst).toFinset.card :=
        (List.toFinset_card_of_nodup hndS).symm
      _ = (items.filterMap PriceItem.skuName).toFinset.card := by
        rw [show ((aggregateSkus items).map Prod.fst).toFinset = _ from htfS, hmapU]
        simp
  · intro k agg hfind
    have hmemk : k ∈ (aggregateSkus items).map Prod.fst := assocFind_some_mem _ _ _ hfind
    have hmemk2 : k ∈ items.map (fun i => i.skuName.getD "Unknown") := by
      have h0 := List.mem_toFinset.mpr hmemk
      rw [show ((aggregateSkus items).map Prod.fst).toFinset = _ from htfS] at h0
      simpa using h0
    have hex : ∃ it, it ∈ items ∧ (it.skuName.getD "Unknown" == k) = true := by
      rcases List.mem_map.mp hmemk2 with ⟨it, hit, heq⟩
      exact ⟨it, hit, by simp [heq]⟩
    cases hfo : items.find? (fun it => it.skuName.getD "Unknown" == k) with
    | none =>
      rw [List.find?_eq_none] at hfo
      rcases hex with ⟨it, hit, hpit⟩
      exact absurd hpit (hfo it hit)
    | some i₀ =>
      obtain ⟨a, ha, hap, haa⟩ := foldl_addService_fresh items [] k rfl i₀ hfo
      have heq : agg = a := Option.some.inj (hfind.symm.trans ha)
      refine ⟨i₀, rfl, ?_, ?_⟩
      · rw [heq]; exact hap
      · rw [heq]; exact haa
  · exact foldl_addService_regions_nodup items [] (by simp)
  · calc (aggregateDiscoverSkus items).length
        = ((aggregateDiscoverSkus items).map Prod.fst).length := (List.length_map _ _).symm
      _ = ((aggregateDiscoverSkus items).map Prod.fst).toFinset.card :=
        (List.toFinset_card_of_nodup hinvD.1).symm
      _ = (items.filterMap PriceItem.skuName).toFinset.card := by
        rw [show ((aggregateDiscoverSkus items).map Prod.fst).toFinset = _ from htfD, hmapE]
        simp
  · intro k sku hfind
    have hmemk : k ∈ (aggregateDiscoverSkus items).map Prod.fst :=
      assocFind_some_mem _ _ _ hfind
    have hmemk2 : k ∈ items.map (fun i => i.skuName.getD "") := by
      have h0 := List.mem_toFinset.mpr hmemk
      rw [show ((aggregateDiscoverSkus items).map Prod.fst).toFinset = _ from htfD] at h0
      simpa using h0
    have hex : ∃ it, it ∈ items ∧ (it.skuName.getD "" == k) = true := by
      rcases List.mem_map.mp hmemk2 with ⟨it, hit, heq⟩
      exact ⟨it, hit, by simp [heq]⟩
    cases hfo : items.find? (fun it => it.skuName.getD "" == k) with
    | none =>
      rw [List.find?_eq_none] at hfo
      rcases hex with ⟨it, hit, hpit⟩
      exact absurd hpit (hfo it hit)
    | some i₀ =>
      obtain ⟨a, ha, hap, haa⟩ := foldl_addDiscover_fresh items [] k h rfl i₀ hfo
      have heq : sku = a := Option.some.inj (hfind.symm.trans ha)
      refine ⟨i₀, rfl, ?_, ?_⟩
      · rw [heq]; exact hap
      · rw [heq]; exact haa

/-- C5 witness: a concrete singleton item list yields exactly one
aggregate with duplicate-free regions. -/
theorem C5_sku_aggregator_witness :
    (aggregateSkus [itemB]).length = ([itemB].filterMap PriceItem.skuName).toFinset.card
    ∧ (aggregateSkus [itemB]).length = 1
    ∧ (∀ p ∈ aggregateDiscoverSkus [itemB], p.2.available_regions.Nodup) := by
  obtain ⟨-, h2, -, -, -, -, -, h8⟩ := C5_sku_aggregator [itemB] (by
    intro i hi
    simp only [List.mem_singleton] at hi
    rw [hi]
    rfl)
  refine ⟨h2, ?_, h8⟩
  rw [h2]
  rfl
